import Mathlib

/-!
Verification development for the Scientific American latest-issue scraper
(`scraper.py`).  The Python program is shallowly embedded: JSON/Python values
become the inductive type `Json`, fallible Python code becomes `Except PyErr`,
and the handful of standard-library routines the scraper relies on
(`json.loads`, `datetime.fromisoformat`, `strftime`, `urllib.parse.urljoin`,
and the concrete regular expressions it uses) are modelled as executable Lean
functions, each documented with the exact scope of the model.
-/

/-- Python exception classes that the scraper's code paths can raise or catch. -/
inductive PyErr where
  | keyError
  | typeError
  | attributeError
  | valueError
  | noArticles
deriving Repr, DecidableEq

/-- Result of running a piece of Python code: a value or an uncaught exception. -/
abbrev PyRes (α : Type) : Type := Except PyErr α

/-- Python/JSON values as manipulated by the scraper: `None`, booleans,
strings, integers, lists and dicts (dicts as insertion-ordered key/value
lists with unique keys, matching Python dict semantics). -/
inductive Json where
  | null
  | bool (b : Bool)
  | str (s : String)
  | int (n : Int)
  | arr (xs : List Json)
  | obj (kvs : List (String × Json))

/-- Python truthiness (`bool(x)`) for the embedded values. -/
def pyTruthy : Json → Bool
  | Json.null => false
  | Json.bool b => b
  | Json.str s => s ≠ ""
  | Json.int n => n ≠ 0
  | Json.arr xs => !xs.isEmpty
  | Json.obj kvs => !kvs.isEmpty

/-- Python `a or b` on embedded values. -/
def pyOr (a b : Json) : Json := if pyTruthy a then a else b

/-- First-match association-list lookup (dict keys are unique, see `objInsert`). -/
def objFind (kvs : List (String × Json)) (k : String) : Option Json :=
  match kvs with
  | [] => none
  | (k', v) :: rest => if k' = k then some v else objFind rest k

/-- Python dict insertion: replace the value in place if the key exists
(keeping its position), otherwise append.  Used by the JSON parser so that
duplicate keys behave like `json.loads` (last value wins, first position kept). -/
def objInsert (kvs : List (String × Json)) (k : String) (v : Json) :
    List (String × Json) :=
  match kvs with
  | [] => [(k, v)]
  | (k', v') :: rest =>
      if k' = k then (k', v) :: rest else (k', v') :: objInsert rest k v

/-- Python `d.get(k)` (default `None`): raises `AttributeError` when the
receiver is not a dict, as in `"oops".get(...)`. -/
def pyGetN (j : Json) (k : String) : PyRes Json :=
  match j with
  | Json.obj kvs => .ok ((objFind kvs k).getD Json.null)
  | _ => .error .attributeError

/-- Python `d.get(k, default)`: raises `AttributeError` when the receiver is
not a dict. -/
def pyGetD (j : Json) (k : String) (d : Json) : PyRes Json :=
  match j with
  | Json.obj kvs => .ok ((objFind kvs k).getD d)
  | _ => .error .attributeError

/-- Python subscript `j[k]` with a string key: `KeyError` when the key is
missing from a dict, `TypeError` when the receiver is not a dict
(`"s"["k"]`, `[..]["k"]`, `5["k"]`, `None["k"]` all raise `TypeError`). -/
def pySubscript (j : Json) (k : String) : PyRes Json :=
  match j with
  | Json.obj kvs =>
      match objFind kvs k with
      | some v => .ok v
      | none => .error .keyError
  | _ => .error .typeError

/-- Python iteration `for x in j`: lists yield elements, strings yield
one-character strings, dicts yield their keys; other values raise
`TypeError` (not iterable). -/
def pyIter (j : Json) : PyRes (List Json) :=
  match j with
  | Json.arr xs => .ok xs
  | Json.str s => .ok (s.data.map (fun c => Json.str (String.singleton c)))
  | Json.obj kvs => .ok (kvs.map (fun kv => Json.str kv.1))
  | _ => .error .typeError

/-- Python `len(j)`: defined for strings, lists and dicts; `TypeError`
otherwise (as evaluated inside the scraper's log f-strings). -/
def pyLen (j : Json) : PyRes Nat :=
  match j with
  | Json.str s => .ok s.length
  | Json.arr xs => .ok xs.length
  | Json.obj kvs => .ok kvs.length
  | _ => .error .typeError

/-- Python `j == "s"` for a string literal on the right: true exactly for the
equal string value (no coercions across types in Python `==` here). -/
def pyEqStr (j : Json) (s : String) : Bool :=
  match j with
  | Json.str t => t = s
  | _ => false

/-- Characters matched by the regex class `\s` on the inputs the scraper
handles (ASCII whitespace; the model does not cover non-ASCII whitespace). -/
def isPyWs (c : Char) : Bool :=
  c = ' ' || c = '\t' || c = '\n' || c = '\r' || c = '\x0b' || c = '\x0c'

/-- Python `str.strip()` with no argument (ASCII-whitespace model). -/
def pyStrip (s : String) : String :=
  String.mk (((s.data.dropWhile isPyWs).reverse.dropWhile isPyWs).reverse)

/-- The apostrophe character (used when rendering Python `repr` of strings). -/
def aposChar : Char := Char.ofNat 39

/-- Opening brace character. -/
def lbrace : Char := Char.ofNat 123

/-- Closing brace character. -/
def rbrace : Char := Char.ofNat 125

/-- Backtick character (delimiter of the embedded `window.__DATA__` payload). -/
def backtick : Char := Char.ofNat 96

mutual

/-- Python `repr` for embedded values (model: strings are always rendered
with apostrophe quotes and no escaping — the scraper only ever feeds the
result to XML escaping, and no claim depends on `repr` corner cases). -/
def pyRepr : Json → String
  | Json.null => "None"
  | Json.bool b => if b then "True" else "False"
  | Json.int n => toString n
  | Json.str s => String.singleton aposChar ++ s ++ String.singleton aposChar
  | Json.arr xs => "[" ++ pyReprList xs ++ "]"
  | Json.obj kvs => String.singleton lbrace ++ pyReprObj kvs ++ String.singleton rbrace

/-- Comma-separated `repr` of list elements. -/
def pyReprList : List Json → String
  | [] => ""
  | [x] => pyRepr x
  | x :: xs => pyRepr x ++ ", " ++ pyReprList xs

/-- Comma-separated `repr` of dict items. -/
def pyReprObj : List (String × Json) → String
  | [] => ""
  | [(k, v)] => pyRepr (Json.str k) ++ ": " ++ pyRepr v
  | (k, v) :: kvs => pyRepr (Json.str k) ++ ": " ++ pyRepr v ++ ", " ++ pyReprObj kvs

end

/-- Python `str(j)`: identity on strings, `repr`-like rendering otherwise
(matching `str` = `repr` for containers, `None` and booleans). -/
def pyStr (j : Json) : String :=
  match j with
  | Json.str s => s
  | _ => pyRepr j

/-- Replace every non-overlapping occurrence of `pat` (non-empty) by `rep`,
scanning left to right: the model of Python `str.replace`.  `fuel` bounds the
recursion; callers pass the input length plus one, which always suffices
because each step consumes at least one character. -/
def replaceListAux (pat rep : List Char) (fuel : Nat) (l : List Char) : List Char :=
  match fuel with
  | 0 => l
  | fuel + 1 =>
      match l with
      | [] => []
      | c :: rest =>
          if pat.isPrefixOf (c :: rest) then
            rep ++ replaceListAux pat rep fuel (List.drop pat.length (c :: rest))
          else
            c :: replaceListAux pat rep fuel rest

/-- Python `s.replace(pat, rep)` for a non-empty pattern. -/
def pyReplace (s pat rep : String) : String :=
  String.mk (replaceListAux pat.data rep.data (s.data.length + 1) s.data)

/-- One step of the regex `<[^>]+>` at the head of the list: if the list
starts with `<`, at least one non-`>` character and then `>`, return the
remainder after the closing `>`. -/
def tagAt : List Char → Option (List Char)
  | '<' :: rest =>
      let inner := rest.takeWhile (fun c => c ≠ '>')
      match rest.drop inner.length with
      | '>' :: after => if inner.isEmpty then none else some after
      | _ => none
  | _ => none

/-- Global substitution of the regex `<[^>]+>` by the empty string
(the body of `_strip_html`), scanning left to right. -/
def stripTagsAux (fuel : Nat) (l : List Char) : List Char :=
  match fuel with
  | 0 => l
  | fuel + 1 =>
      match l with
      | [] => []
      | c :: rest =>
          match tagAt (c :: rest) with
          | some after => stripTagsAux fuel after
          | none => c :: stripTagsAux fuel rest

/-- `re.sub(r'<[^>]+>', '', text)` from `_strip_html`. -/
def stripTags (s : String) : String :=
  String.mk (stripTagsAux (s.data.length + 1) s.data)

/-- `_strip_html` on an embedded value: falsy input yields the empty string,
a string is tag-stripped then whitespace-trimmed, and any other truthy value
raises `TypeError` (as `re.sub` does on a non-string). -/
def strip_html (t : Json) : PyRes String :=
  if pyTruthy t then
    match t with
    | Json.str s => .ok (pyStrip (stripTags s))
    | _ => .error .typeError
  else
    .ok ""

/-- Replace one character by a replacement string throughout a character
list: the model of Python `str.replace` with a one-character pattern, used
five times in sequence by `escape_xml`. -/
def replaceChar (c : Char) (rep : List Char) : List Char → List Char
  | [] => []
  | d :: rest =>
      (if d = c then rep else [d]) ++ replaceChar c rep rest

/-- The five XML replacements of `escape_xml`, in source order: `&` first,
then `<`, `>`, `"` and the apostrophe. -/
def escapeChars (l : List Char) : List Char :=
  replaceChar aposChar "&apos;".data
    (replaceChar '"' "&quot;".data
      (replaceChar '>' "&gt;".data
        (replaceChar '<' "&lt;".data
          (replaceChar '&' "&amp;".data l))))

/-- `escape_xml`: falsy input yields the empty string; otherwise the value is
converted with `str` and the five entity replacements are applied. -/
def escape_xml (t : Json) : String :=
  if pyTruthy t then String.mk (escapeChars (pyStr t).data) else ""

/-- `escape_xml` applied to an ordinary string. -/
def escapeStr (s : String) : String := escape_xml (Json.str s)

/-- `s.startswith(pre)` as a kernel-reducible character-list test. -/
def strStartsWith (s pre : String) : Bool := pre.data.isPrefixOf s.data

/-- `s.endswith(suf)` as a kernel-reducible character-list test. -/
def strEndsWith (s suf : String) : Bool := suf.data.isSuffixOf s.data

/-- ASCII lowercasing of a string, character by character. -/
def strToLower (s : String) : String := String.mk (s.data.map Char.toLower)

/-- `sep.join(parts)` (Python string join). -/
def joinSep (sep : String) : List String → String
  | [] => ""
  | [x] => x
  | x :: y :: t => x ++ sep ++ joinSep sep (y :: t)

/-- Split at the first occurrence of a character: the part before it and,
when present, the part after it. -/
def breakOnChar (c : Char) : List Char → List Char × Option (List Char)
  | [] => ([], none)
  | d :: rest =>
      if d = c then ([], some rest)
      else
        let r := breakOnChar c rest
        (d :: r.1, r.2)

/-- Python `str.split(c)` on a character list. -/
def splitOnCharList (c : Char) : List Char → List (List Char)
  | [] => [[]]
  | d :: rest =>
      if d = c then [] :: splitOnCharList c rest
      else
        match splitOnCharList c rest with
        | [] => [[d]]
        | x :: xs => (d :: x) :: xs

/-- The fixed site base of the scraper (`BASE_URL`). -/
def BASE_URL : String := "https://www.scientificamerican.com"

/-- The fixed page URL of the scraper (`PAGE_URL`). -/
def PAGE_URL : String := "https://www.scientificamerican.com/latest-issue/"

/-- Characters allowed in a URI scheme after the initial letter
(`urllib.parse` scheme characters). -/
def isSchemeChar (c : Char) : Bool :=
  c.isAlpha || c.isDigit || c = '+' || c = '-' || c = '.'

/-- Split a leading URI scheme: a letter followed by scheme characters and a
colon.  Returns the scheme and the remainder after the colon. -/
def schemeSplit (s : String) : Option (String × String) :=
  match s.data with
  | [] => none
  | c :: rest =>
      if c.isAlpha then
        let run := rest.takeWhile isSchemeChar
        match rest.drop run.length with
        | ':' :: after => some (String.mk (c :: run), String.mk after)
        | _ => none
      else none

/-- Whether a string is an absolute URL in the sense of carrying a URI
scheme (`scheme:`-prefixed). -/
def hasScheme (s : String) : Bool := (schemeSplit s).isSome

/-- RFC 3986 style dot-segment resolution used by `urllib.parse.urljoin`
(model: `.` segments dropped, `..` pops the previous segment when one is
available; the scraper's claims depend only on the authority prefix of the
result, not on dot-segment corner cases). -/
def resolveSegs (segs : List String) : List String :=
  segs.foldl
    (fun acc seg =>
      if seg = "." then acc
      else if seg = ".." then
        match acc.reverse with
        | [] => []
        | _ :: restRev => restRev.reverse
      else acc ++ [seg])
    []

/-- Merge a scheme-less reference with the fixed base
`https://www.scientificamerican.com` (whose path, query and fragment are all
empty), following `urllib.parse.urljoin`: protocol-relative references adopt
the base scheme, otherwise the reference's path/query/fragment are attached
to the base authority. -/
def joinRelPath (p : String) : String :=
  match p.data with
  | '/' :: '/' :: _ => "https:" ++ p
  | _ =>
    let pq := breakOnChar '#' p.data
    let fragSuffix := match pq.2 with | some f => "#" ++ String.mk f | none => ""
    let pathq := breakOnChar '?' pq.1
    let querySuffix := match pathq.2 with | some q => "?" ++ String.mk q | none => ""
    let path := pathq.1
    if path.isEmpty then BASE_URL ++ querySuffix ++ fragSuffix
    else
      let segs := (splitOnCharList '/' path).map String.mk
      let segs := match path with | '/' :: _ => segs.tail | _ => segs
      BASE_URL ++ "/" ++ joinSep "/" (resolveSegs segs) ++ querySuffix ++ fragSuffix

/-- `urllib.parse.urljoin(BASE_URL, r)` specialized to the scraper's fixed
base: references carrying a scheme other than `https` are returned
unchanged; `https` references with an authority are returned unchanged
(model note: the scheme-case normalization performed by `urlparse` is not
modelled); everything else is merged with the base. -/
def urljoinBase (r : String) : String :=
  if r = "" then BASE_URL
  else
    match schemeSplit r with
    | some (sch, rest) =>
        if strToLower sch = "https" then
          match rest.data with
          | '/' :: '/' :: _ => r
          | _ => joinRelPath rest
        else r
    | none => joinRelPath r

/-- `urljoin(BASE_URL, x)` as invoked on an embedded value: Python raises
`TypeError` when the reference is not a string. -/
def jUrljoin (j : Json) : PyRes String :=
  match j with
  | Json.str s => .ok (urljoinBase s)
  | _ => .error .typeError

/-- `full_url = urljoin(BASE_URL, raw_url) if raw_url else ''` — the guarded
join of `normalize_articles_from_window_data`. -/
def jFullUrl (rawUrl : Json) : PyRes String :=
  if pyTruthy rawUrl then jUrljoin rawUrl else .ok ""

/-- JSON insignificant whitespace (`json.loads` accepts exactly these four). -/
def isJsonWs (c : Char) : Bool :=
  c = ' ' || c = '\t' || c = '\n' || c = '\r'

/-- Skip JSON whitespace. -/
def skipJsonWs (l : List Char) : List Char := l.dropWhile isJsonWs

/-- Parse the body of a JSON string after the opening quote.  Model of the
strict `json.loads` string grammar restricted to the escapes
`\" \\ \/ \b \f \n \r \t` (no `\uXXXX`, documented restriction); raw control
characters are rejected as in strict mode. -/
def parseJsonStringBody (fuel : Nat) (l : List Char) : Option (List Char × List Char) :=
  match fuel with
  | 0 => none
  | fuel + 1 =>
      match l with
      | [] => none
      | '"' :: rest => some ([], rest)
      | '\\' :: e :: rest =>
          let esc : Option Char :=
            if e = '"' then some '"'
            else if e = '\\' then some '\\'
            else if e = '/' then some '/'
            else if e = 'b' then some '\x08'
            else if e = 'f' then some '\x0c'
            else if e = 'n' then some '\n'
            else if e = 'r' then some '\r'
            else if e = 't' then some '\t'
            else none
          match esc with
          | some c =>
              match parseJsonStringBody fuel rest with
              | some (cs, r) => some (c :: cs, r)
              | none => none
          | none => none
      | c :: rest =>
          if c.toNat < 32 then none
          else
            match parseJsonStringBody fuel rest with
            | some (cs, r) => some (c :: cs, r)
            | none => none

mutual

/-- Recursive-descent JSON value parser: the model of `json.loads` restricted
to objects, arrays, strings, integers, `true`, `false` and `null` (floats,
exponents and `\u` escapes are rejected; the scraper's claims never depend on
them).  Strict about trailing commas, exactly like `json.loads`. -/
def parseJsonVal (fuel : Nat) (l : List Char) : Option (Json × List Char) :=
  match fuel with
  | 0 => none
  | fuel + 1 =>
      match l with
      | [] => none
      | c :: rest =>
          if c = '"' then
            match parseJsonStringBody (rest.length + 1) rest with
            | some (cs, r) => some (Json.str (String.mk cs), r)
            | none => none
          else if c = lbrace then parseJsonObjItems fuel (skipJsonWs rest) []
          else if c = '[' then parseJsonArrItems fuel (skipJsonWs rest) []
          else if "true".data.isPrefixOf (c :: rest) then
            some (Json.bool true, (c :: rest).drop 4)
          else if "false".data.isPrefixOf (c :: rest) then
            some (Json.bool false, (c :: rest).drop 5)
          else if "null".data.isPrefixOf (c :: rest) then
            some (Json.null, (c :: rest).drop 4)
          else
            let (neg, l') := if c = '-' then (true, rest) else (false, c :: rest)
            let digits := l'.takeWhile Char.isDigit
            if digits.isEmpty then none
            else if digits.length ≥ 2 && digits.headD '0' = '0' then none
            else
              let after := l'.drop digits.length
              match after with
              | d :: _ =>
                  if d = '.' || d = 'e' || d = 'E' then none
                  else
                    let n : Nat := digits.foldl (fun a c => a * 10 + (c.toNat - 48)) 0
                    some (Json.int (if neg then -(n : Int) else (n : Int)), after)
              | [] =>
                  let n : Nat := digits.foldl (fun a c => a * 10 + (c.toNat - 48)) 0
                  some (Json.int (if neg then -(n : Int) else (n : Int)), after)

/-- Object members after `{` (leading whitespace already skipped); `acc`
holds the members parsed so far, inserted with Python-dict duplicate-key
semantics. -/
def parseJsonObjItems (fuel : Nat) (l : List Char) (acc : List (String × Json)) :
    Option (Json × List Char) :=
  match fuel with
  | 0 => none
  | fuel + 1 =>
      match l with
      | [] => none
      | c :: rest =>
          if c = rbrace then
            if acc.isEmpty then some (Json.obj [], rest) else none
          else if c = '"' then
            match parseJsonStringBody (rest.length + 1) rest with
            | none => none
            | some (kcs, afterKey) =>
                match skipJsonWs afterKey with
                | ':' :: afterColon =>
                    match parseJsonVal fuel (skipJsonWs afterColon) with
                    | none => none
                    | some (v, afterVal) =>
                        let acc' := objInsert acc (String.mk kcs) v
                        match skipJsonWs afterVal with
                        | ',' :: afterComma =>
                            parseJsonObjMore fuel (skipJsonWs afterComma) acc'
                        | c' :: afterClose =>
                            if c' = rbrace then some (Json.obj acc', afterClose) else none
                        | [] => none
                | _ => none
          else none

/-- Object members after a comma: a further member is mandatory (no trailing
comma, exactly as in strict `json.loads`). -/
def parseJsonObjMore (fuel : Nat) (l : List Char) (acc : List (String × Json)) :
    Option (Json × List Char) :=
  match fuel with
  | 0 => none
  | fuel + 1 =>
      match l with
      | '"' :: rest =>
          match parseJsonStringBody (rest.length + 1) rest with
          | none => none
          | some (kcs, afterKey) =>
              match skipJsonWs afterKey with
              | ':' :: afterColon =>
                  match parseJsonVal fuel (skipJsonWs afterColon) with
                  | none => none
                  | some (v, afterVal) =>
                      let acc' := objInsert acc (String.mk kcs) v
                      match skipJsonWs afterVal with
                      | ',' :: afterComma =>
                          parseJsonObjMore fuel (skipJsonWs afterComma) acc'
                      | c' :: afterClose =>
                          if c' = rbrace then some (Json.obj acc', afterClose) else none
                      | [] => none
              | _ => none
      | _ => none

/-- Array elements after `[` (leading whitespace already skipped). -/
def parseJsonArrItems (fuel : Nat) (l : List Char) (acc : List Json) :
    Option (Json × List Char) :=
  match fuel with
  | 0 => none
  | fuel + 1 =>
      match l with
      | [] => none
      | ']' :: rest =>
          if acc.isEmpty then some (Json.arr [], rest) else none
      | l' =>
          match parseJsonVal fuel l' with
          | none => none
          | some (v, afterVal) =>
              match skipJsonWs afterVal with
              | ',' :: afterComma => parseJsonArrItems fuel (skipJsonWs afterComma) (acc ++ [v])
              | ']' :: afterClose => some (Json.arr (acc ++ [v]), afterClose)
              | _ => none

end

/-- `json.loads` on a whole document: whitespace-framed single value, extra
data rejected. -/
def jsonParse (s : String) : Option Json :=
  match parseJsonVal (4 * s.data.length + 8) (skipJsonWs s.data) with
  | some (v, rest) => if (skipJsonWs rest).isEmpty then some v else none
  | none => none

/-- Proleptic-Gregorian leap year (as in Python `datetime`). -/
def isLeapYear (y : Nat) : Bool :=
  (y % 4 = 0 && y % 100 ≠ 0) || y % 400 = 0

/-- Days in a month (month 1–12). -/
def daysInMonth (y m : Nat) : Nat :=
  if m = 2 then (if isLeapYear y then 29 else 28)
  else if m = 4 || m = 6 || m = 9 || m = 11 then 30
  else 31

/-- Days in the months strictly before month `m` of year `y`. -/
def daysBeforeMonth (y m : Nat) : Nat :=
  (List.range (m - 1)).foldl (fun acc i => acc + daysInMonth y (i + 1)) 0

/-- Days elapsed since 0001-01-01 (which is a Monday in the proleptic
Gregorian calendar, as Python's `datetime(1,1,1).weekday() == 0`). -/
def daysSinceDay1 (y m d : Nat) : Nat :=
  365 * (y - 1) + ((y - 1) / 4 - (y - 1) / 100 + (y - 1) / 400)
    + daysBeforeMonth y m + (d - 1)

/-- The aware-or-naive datetime produced by `datetime.fromisoformat`:
calendar fields plus an optional UTC offset in seconds. -/
structure PyDateTime where
  year : Nat
  month : Nat
  day : Nat
  hour : Nat
  minute : Nat
  second : Nat
  offset : Option Int
deriving DecidableEq

/-- A zero-padded decimal digit character. -/
def digitChar (k : Nat) : Char := Char.ofNat (48 + k % 10)

/-- Two-digit zero-padded field (`%d`, `%H`, `%M`, `%S`, offset components). -/
def pad2 (n : Nat) : List Char := [digitChar (n / 10), digitChar n]

/-- Decimal digits of a natural number, most significant first (`%Y` without
padding, as glibc renders years). -/
def natDigitsAux (fuel n : Nat) (acc : List Char) : List Char :=
  match fuel with
  | 0 => acc
  | fuel + 1 =>
      if n < 10 then digitChar n :: acc
      else natDigitsAux fuel (n / 10) (digitChar (n % 10) :: acc)

/-- Decimal digits of a natural number. -/
def natDigits (n : Nat) : List Char := natDigitsAux (n + 1) n []

/-- `%a` day abbreviation, index 0 = Monday (C locale). -/
def dayAbbrev (i : Nat) : String :=
  match i % 7 with
  | 0 => "Mon" | 1 => "Tue" | 2 => "Wed" | 3 => "Thu" | 4 => "Fri"
  | 5 => "Sat" | _ => "Sun"

/-- `%b` month abbreviation (C locale), month 1–12. -/
def monthAbbrev (m : Nat) : String :=
  match m with
  | 1 => "Jan" | 2 => "Feb" | 3 => "Mar" | 4 => "Apr" | 5 => "May" | 6 => "Jun"
  | 7 => "Jul" | 8 => "Aug" | 9 => "Sep" | 10 => "Oct" | 11 => "Nov" | _ => "Dec"

/-- `%z` on an aware datetime: sign, hours, minutes, and seconds only when
they are non-zero (CPython's rendering of `utcoffset()`). -/
def offsetChars (off : Int) : List Char :=
  let a := off.natAbs
  let sign : Char := if off < 0 then '-' else '+'
  sign :: (pad2 (a / 3600) ++ pad2 (a % 3600 / 60) ++
    (if a % 60 = 0 then [] else pad2 (a % 60)))

/-- `dt.strftime('%a, %d %b %Y %H:%M:%S %z')` as a character list; `%z`
renders as the empty string on a naive datetime, leaving the literal
trailing space of the format in place. -/
def strftimeChars (dt : PyDateTime) : List Char :=
  (dayAbbrev (daysSinceDay1 dt.year dt.month dt.day)).data ++ ", ".data ++
  pad2 dt.day ++ " ".data ++ (monthAbbrev dt.month).data ++ " ".data ++
  natDigits dt.year ++ " ".data ++
  pad2 dt.hour ++ [':'] ++ pad2 dt.minute ++ [':'] ++ pad2 dt.second ++
  " ".data ++ (match dt.offset with | some off => offsetChars off | none => [])

/-- `dt.strftime('%a, %d %b %Y %H:%M:%S %z')`. -/
def strftimeRfc (dt : PyDateTime) : String := String.mk (strftimeChars dt)

/-- First index of a character in a list (`str.find`, as an `Option`). -/
def findIdxOfChar (c : Char) : List Char → Option Nat
  | [] => none
  | d :: rest =>
      if d = c then some 0
      else match findIdxOfChar c rest with
        | some i => some (i + 1)
        | none => none

/-- `_parse_hh_mm_ss_ff` of CPython 3.7–3.10: `HH`, `HH:MM`, `HH:MM:SS` or
`HH:MM:SS.fff`/`.ffffff`, each component two digits (model restriction: the
components must be plain digits; `int()`'s tolerance of padding is not
modelled).  Returns hours, minutes, seconds and the fractional value. -/
def parseHMSF (l : List Char) : Option (Nat × Nat × Nat × Nat) :=
  match l with
  | h1 :: h2 :: rest =>
      if h1.isDigit && h2.isDigit then
        let h := (h1.toNat - 48) * 10 + (h2.toNat - 48)
        match rest with
        | [] => some (h, 0, 0, 0)
        | ':' :: m1 :: m2 :: rest2 =>
            if m1.isDigit && m2.isDigit then
              let m := (m1.toNat - 48) * 10 + (m2.toNat - 48)
              match rest2 with
              | [] => some (h, m, 0, 0)
              | ':' :: s1 :: s2 :: rest3 =>
                  if s1.isDigit && s2.isDigit then
                    let s := (s1.toNat - 48) * 10 + (s2.toNat - 48)
                    match rest3 with
                    | [] => some (h, m, s, 0)
                    | '.' :: frac =>
                        if (frac.length = 3 || frac.length = 6) && frac.all Char.isDigit then
                          some (h, m, s, frac.foldl (fun a c => a * 10 + (c.toNat - 48)) 0)
                        else none
                    | _ => none
                  else none
              | _ => none
            else none
        | _ => none
      else none
  | _ => none

/-- The timezone part of `_parse_isoformat_time`: the tz string must have
length 5, 8 or 15 (`HH:MM`, `HH:MM:SS`, `HH:MM:SS.ffffff`); an all-zero
offset is `timezone.utc`, otherwise the signed offset must be strictly less
than 24 hours (model restriction: offsets with a non-zero fractional part
are rejected rather than carried). -/
def parseTzOffset (sign : Char) (tzstr : List Char) : Option Int :=
  if tzstr.length = 5 || tzstr.length = 8 || tzstr.length = 15 then
    match parseHMSF tzstr with
    | some (h, m, s, f) =>
        if h = 0 && m = 0 && s = 0 && f = 0 then some 0
        else if f ≠ 0 then none
        else
          let total : Nat := h * 3600 + m * 60 + s
          if total < 86400 then
            some (if sign = '-' then -(total : Int) else (total : Int))
          else none
    | none => none
  else none

/-- `_parse_isoformat_time` of CPython 3.7–3.10: the time string is split at
the first `-`, else the first `+`, into a clock part and a timezone part. -/
def parseIsoTime (tstr : List Char) : Option (Nat × Nat × Nat × Option Int) :=
  if tstr.length < 2 then none
  else
    let tzIdx := match findIdxOfChar '-' tstr with
      | some i => some i
      | none => findIdxOfChar '+' tstr
    match tzIdx with
    | none =>
        match parseHMSF tstr with
        | some (h, m, s, _) => some (h, m, s, none)
        | none => none
    | some i =>
        match parseHMSF (tstr.take i) with
        | some (h, m, s, _) =>
            match parseTzOffset (tstr.getD i ' ') (tstr.drop (i + 1)) with
            | some off => some (h, m, s, some off)
            | none => none
        | none => none

/-- `datetime.fromisoformat` of CPython 3.7–3.10: the first ten characters
must be `YYYY-MM-DD` (model restriction: plain digits), character ten — any
separator — is ignored, and everything from index eleven is parsed as the
time (absent time means midnight).  The resulting fields are validated as
the `datetime` constructor does. -/
def fromIso (s : String) : Option PyDateTime :=
  match s.data.take 10 with
  | [y1, y2, y3, y4, c1, m1, m2, c2, d1, d2] =>
      if [y1, y2, y3, y4, m1, m2, d1, d2].all Char.isDigit && c1 = '-' && c2 = '-' then
        let y := (((y1.toNat - 48) * 10 + (y2.toNat - 48)) * 10 + (y3.toNat - 48)) * 10
                   + (y4.toNat - 48)
        let mo := (m1.toNat - 48) * 10 + (m2.toNat - 48)
        let d := (d1.toNat - 48) * 10 + (d2.toNat - 48)
        let tchars := s.data.drop 11
        let time : Option (Nat × Nat × Nat × Option Int) :=
          if tchars.isEmpty then some (0, 0, 0, none) else parseIsoTime tchars
        match time with
        | some (h, mi, sec, off) =>
            if 1 ≤ y && y ≤ 9999 && 1 ≤ mo && mo ≤ 12 && 1 ≤ d &&
                d ≤ daysInMonth y mo && h ≤ 23 && mi ≤ 59 && sec ≤ 59 then
              some ⟨y, mo, d, h, mi, sec, off⟩
            else none
        | none => none
      else none
  | _ => none

/-- The anchored regex `^\d{4}-\d{2}-\d{2}T\d{2}:\d{2}:\d{2}$` without the
`$`-before-trailing-newline tolerance. -/
def shape3Core : List Char → Bool
  | [y1, y2, y3, y4, '-', m1, m2, '-', d1, d2, 'T', h1, h2, ':', i1, i2, ':', s1, s2] =>
      [y1, y2, y3, y4, m1, m2, d1, d2, h1, h2, i1, i2, s1, s2].all Char.isDigit
  | _ => false

/-- `re.match(r'^\d{4}-\d{2}-\d{2}T\d{2}:\d{2}:\d{2}$', s)`: anchored at the
start, and `$` also matches just before a single trailing newline. -/
def shape3Match (s : String) : Bool :=
  shape3Core s.data ||
    (s.data.getLast? = some '\n' && shape3Core s.data.dropLast)

/-- The datetime computed inside `parse_pubdate_iso_to_rfc822`'s `try` block:
a trailing `Z` sends the string through `replace('Z', '+00:00')` (replacing
every `Z`), the nineteen-character no-timezone shape gets `+00:00` appended,
and anything else goes to `fromisoformat` directly. -/
def pubdateRoute (s : String) : Option PyDateTime :=
  if strEndsWith s "Z" then fromIso (pyReplace s "Z" "+00:00")
  else if shape3Match s then fromIso (s ++ "+00:00")
  else fromIso s

/-- `parse_pubdate_iso_to_rfc822` on a string input: falsy input returns the
empty string, any parse failure is caught by the blanket `except` and
returns the empty string, success is formatted with
`strftime('%a, %d %b %Y %H:%M:%S %z')`. -/
def parse_pubdate_str (s : String) : String :=
  if s = "" then ""
  else
    match pubdateRoute s with
    | some dt => strftimeRfc dt
    | none => ""

/-- `parse_pubdate_iso_to_rfc822` on an embedded value: falsy values return
the empty string; a truthy non-string raises `AttributeError` inside the
`try` block, which the blanket `except` also converts to the empty string —
the function never raises. -/
def parse_pubdate_iso_to_rfc822 (j : Json) : String :=
  if pyTruthy j then
    match j with
    | Json.str s => parse_pubdate_str s
    | _ => ""
  else ""

/-- Tail of the RFC-822 shape after the seconds field: a sign and a
four-digit offset, optionally extended by two digits for offsets with
seconds. -/
def rfcOffsetTail (l : List Char) : Bool :=
  match l with
  | [sg, o1, o2, o3, o4] =>
      (sg = '+' || sg = '-') && [o1, o2, o3, o4].all Char.isDigit
  | [sg, o1, o2, o3, o4, o5, o6] =>
      (sg = '+' || sg = '-') && [o1, o2, o3, o4, o5, o6].all Char.isDigit
  | _ => false

/-- The `HH:MM:SS` field, the literal space, and then either a numeric
offset (`withOff = true`) or nothing (`withOff = false`, the naive case
where `%z` rendered as the empty string). -/
def rfcTimeTail (withOff : Bool) (l : List Char) : Bool :=
  match l with
  | h1 :: h2 :: ':' :: m1 :: m2 :: ':' :: s1 :: s2 :: ' ' :: rest =>
      [h1, h2, m1, m2, s1, s2].all Char.isDigit &&
        (if withOff then rfcOffsetTail rest else rest.isEmpty)
  | _ => false

/-- One or more year digits followed by a space and the time-of-day tail. -/
def rfcYearLoop (withOff : Bool) : List Char → Bool
  | [] => false
  | c :: rest =>
      if c = ' ' then rfcTimeTail withOff rest
      else c.isDigit && rfcYearLoop withOff rest

/-- The RFC-822 shape `Www, DD Mmm YYYY HH:MM:SS +ZZZZ` produced by the date
normalizer (`withOff` selects whether a numeric offset is required after the
trailing space). -/
def rfcShape (withOff : Bool) (l : List Char) : Bool :=
  match l with
  | a1 :: a2 :: a3 :: ',' :: ' ' :: d1 :: d2 :: ' ' :: b1 :: b2 :: b3 :: ' ' :: c :: rest =>
      [a1, a2, a3].all Char.isAlpha && d1.isDigit && d2.isDigit &&
        [b1, b2, b3].all Char.isAlpha && c.isDigit && rfcYearLoop withOff rest
  | _ => false

/-- Valid RFC-822 date string with a numeric offset. -/
def isRfc822WithOffset (s : String) : Bool := rfcShape true s.data

/-- RFC-822-style date string without an offset (trailing space, empty `%z`). -/
def isRfc822Naive (s : String) : Bool := rfcShape false s.data

/-- Drop an exact literal from the front of the list, or fail. -/
def dropLit (pat : List Char) (l : List Char) : Option (List Char) :=
  if pat.isPrefixOf l then some (l.drop pat.length) else none

/-- Case-insensitive prefix test (pattern supplied lowercase, as the
`re.I`-compiled literals of the script regex). -/
def ciPrefixOf : List Char → List Char → Bool
  | [], _ => true
  | _ :: _, [] => false
  | p :: ps, c :: cs => p = c.toLower && ciPrefixOf ps cs

/-- Drop a case-insensitive literal from the front of the list, or fail. -/
def dropLitCI (pat : List Char) (l : List Char) : Option (List Char) :=
  if ciPrefixOf pat l then some (l.drop pat.length) else none

/-- Whether the list starts with `\)\s*;` — the closer following the lazy
group of the backtick-wrapped `window.__DATA__` pattern. -/
def closeParenSemi (l : List Char) : Bool :=
  match l with
  | ')' :: rest =>
      match rest.dropWhile isPyWs with
      | ';' :: _ => true
      | _ => false
  | _ => false

/-- Lazy scan of `(.*?)` up to the first backtick that is followed by
`\)\s*;`, returning the group (DOTALL: any character may occur inside). -/
def lazyBacktickGroup (fuel : Nat) (l : List Char) (acc : List Char) :
    Option (List Char) :=
  match fuel with
  | 0 => none
  | fuel + 1 =>
      match l with
      | [] => none
      | c :: rest =>
          if c = backtick && closeParenSemi rest then some acc.reverse
          else lazyBacktickGroup fuel rest (c :: acc)

/-- Attempt the pattern
`window\.__DATA__\s*=\s*JSON\.parse\(\x60(.*?)\x60\)\s*;` at the head of the
list, returning the lazy group. -/
def tryWindowDataA (l : List Char) : Option (List Char) :=
  match dropLit "window.__DATA__".data l with
  | none => none
  | some l1 =>
      match dropLit "=".data (l1.dropWhile isPyWs) with
      | none => none
      | some l2 =>
          match dropLit "JSON.parse(".data (l2.dropWhile isPyWs) with
          | none => none
          | some l3 =>
              match l3 with
              | c :: rest =>
                  if c = backtick then lazyBacktickGroup (rest.length + 1) rest []
                  else none
              | [] => none

/-- Lazy scan of `(\{.*?\})` up to the first closing brace that is followed
by `\s*;`, returning the group including both braces. -/
def lazyBraceGroup (fuel : Nat) (l : List Char) (acc : List Char) :
    Option (List Char) :=
  match fuel with
  | 0 => none
  | fuel + 1 =>
      match l with
      | [] => none
      | c :: rest =>
          if c = rbrace &&
              (match rest.dropWhile isPyWs with | ';' :: _ => true | _ => false) then
            some (lbrace :: (c :: acc).reverse)
          else lazyBraceGroup fuel rest (c :: acc)

/-- Attempt the pattern `window\.__DATA__\s*=\s*(\{.*?\})\s*;` at the head
of the list, returning the braced group. -/
def tryWindowDataB (l : List Char) : Option (List Char) :=
  match dropLit "window.__DATA__".data l with
  | none => none
  | some l1 =>
      match dropLit "=".data (l1.dropWhile isPyWs) with
      | none => none
      | some l2 =>
          match l2.dropWhile isPyWs with
          | c :: rest =>
              if c = lbrace then lazyBraceGroup (rest.length + 1) rest []
              else none
          | [] => none

/-- `re.search` for the backtick-wrapped `window.__DATA__` pattern:
leftmost attempt position wins. -/
def searchWindowDataA : List Char → Option (List Char)
  | [] => none
  | c :: rest =>
      match tryWindowDataA (c :: rest) with
      | some g => some g
      | none => searchWindowDataA rest

/-- `re.search` for the bare-object `window.__DATA__` pattern. -/
def searchWindowDataB : List Char → Option (List Char)
  | [] => none
  | c :: rest =>
      match tryWindowDataB (c :: rest) with
      | some g => some g
      | none => searchWindowDataB rest

/-- `extract_window_data`: try the `JSON.parse`-wrapped pattern, then the
bare-object pattern; unescape `\x5c\x60` to a plain backtick; parse as JSON.
Any failure yields `None`. -/
def extract_window_data (html : String) : Option Json :=
  let group :=
    match searchWindowDataA html.data with
    | some g => some g
    | none => searchWindowDataB html.data
  match group with
  | none => none
  | some g =>
      let raw := replaceListAux ['\\', backtick] [backtick] (g.length + 1) g
      jsonParse (String.mk raw)

/-- Lazy scan of `(.*?)</script>` (case-insensitive, DOTALL): the group ends
at the first `</script>`; returns the group and the remainder after the
closing tag. -/
def lazyScriptBody (fuel : Nat) (l : List Char) (acc : List Char) :
    Option (List Char × List Char) :=
  match fuel with
  | 0 => none
  | fuel + 1 =>
      if ciPrefixOf "</script>".data l then some (acc.reverse, l.drop 9)
      else
        match l with
        | [] => none
        | c :: rest => lazyScriptBody fuel rest (c :: acc)

/-- After the `type` attribute value: `[^>]*>` then the lazy body up to
`</script>`. -/
def scriptTailAfterAttr (l : List Char) : Option (List Char × List Char) :=
  let run := l.takeWhile (fun c => c ≠ '>')
  match l.drop run.length with
  | '>' :: after => lazyScriptBody (after.length + 1) after []
  | _ => none

/-- Attempt `type=["\x27]application/ld\+json["\x27][^>]*>(.*?)</script>` at
the given position (each quote may independently be `"` or `'`, as the two
character classes of the regex allow). -/
def tryTypeAttrAt (l : List Char) : Option (List Char × List Char) :=
  match dropLitCI "type=".data l with
  | none => none
  | some l1 =>
      match l1 with
      | q1 :: l2 =>
          if q1 = '"' || q1 = aposChar then
            match dropLitCI "application/ld+json".data l2 with
            | none => none
            | some l3 =>
                match l3 with
                | q2 :: l4 =>
                    if q2 = '"' || q2 = aposChar then scriptTailAfterAttr l4
                    else none
                | [] => none
          else none
      | [] => none

/-- Try the `type=` attribute at each of the given offsets into `l0`
(supplied longest-first, matching the greedy backtracking of `[^>]+`). -/
def tryScriptOffsets (l0 : List Char) : List Nat → Option (List Char × List Char)
  | [] => none
  | off :: offs =>
      match tryTypeAttrAt (l0.drop off) with
      | some r => some r
      | none => tryScriptOffsets l0 offs

/-- Attempt the whole script-tag regex
`<script[^>]+type=["\x27]application/ld\+json["\x27][^>]*>(.*?)</script>`
(flags `re.S | re.I`) at the head of the list: `<script` (case-insensitive),
then a non-empty greedy run of non-`>` characters backtracked to find the
`type` attribute. -/
def tryScriptTag (l : List Char) : Option (List Char × List Char) :=
  match dropLitCI "<script".data l with
  | none => none
  | some l0 =>
      let run := l0.takeWhile (fun c => c ≠ '>')
      tryScriptOffsets l0 ((List.range run.length).map (· + 1)).reverse

/-- `re.findall` of the script-tag regex: leftmost matches, scanning resumes
after each match (non-overlapping). -/
def findAllScriptsAux (fuel : Nat) (l : List Char) : List String :=
  match fuel with
  | 0 => []
  | fuel + 1 =>
      match l with
      | [] => []
      | c :: rest =>
          match tryScriptTag (c :: rest) with
          | some (body, after) => String.mk body :: findAllScriptsAux fuel after
          | none => findAllScriptsAux fuel rest

/-- All `application/ld+json` script bodies found in the page text. -/
def findAllScripts (html : String) : List String :=
  findAllScriptsAux (html.data.length + 1) html.data

/-- Global substitution of `,\s*C` by `C` for a closer character `C`
(the best-effort JSON repair of the fallback extractor). -/
def subCommaCloseAux (close : Char) (fuel : Nat) (l : List Char) : List Char :=
  match fuel with
  | 0 => l
  | fuel + 1 =>
      match l with
      | [] => []
      | c :: rest =>
          if c = ',' then
            let ws := rest.takeWhile isPyWs
            match rest.drop ws.length with
            | c' :: after =>
                if c' = close then close :: subCommaCloseAux close fuel after
                else c :: subCommaCloseAux close fuel rest
            | [] => c :: subCommaCloseAux close fuel rest
          else c :: subCommaCloseAux close fuel rest

/-- `re.sub(r',\s*\x7d', '\x7d', s)` followed by `re.sub(r',\s*]', ']', ·)`:
the trailing-comma repair pass. -/
def repairJson (s : String) : String :=
  let first := subCommaCloseAux rbrace (s.data.length + 1) s.data
  String.mk (subCommaCloseAux ']' (first.length + 1) first)

/-- The two-attempt parse of a JSON-LD block: strict `json.loads`, then the
trailing-comma repair and one retry; `none` when both fail (the block is
skipped). -/
def parseBlock (t : String) : Option Json :=
  match jsonParse t with
  | some d => some d
  | none => jsonParse (repairJson t)

/-- Scan a list of parsed entries for the first dict whose `@type` equals
`PublicationIssue`, returning its `hasPart` (default empty list); the `for`
loop `break`s at the first match. -/
def findIssue : List Json → Json
  | [] => Json.arr []
  | item :: rest =>
      match item with
      | Json.obj kvs =>
          if pyEqStr ((objFind kvs "@type").getD Json.null) "PublicationIssue" then
            (objFind kvs "hasPart").getD (Json.arr [])
          else findIssue rest
      | _ => findIssue rest

/-- The candidate search of `extract_articles_from_jsonld` on one parsed
document: a dict is scanned through `data.get('@graph', [data])` (iterating
a non-iterable `@graph` value raises `TypeError`), a list is scanned
directly, anything else leaves the empty candidate list. -/
def findCandidates (data : Json) : PyRes Json :=
  match data with
  | Json.obj kvs =>
      match pyIter ((objFind kvs "@graph").getD (Json.arr [Json.obj kvs])) with
      | .error e => .error e
      | .ok items => .ok (findIssue items)
  | Json.arr xs => .ok (findIssue xs)
  | _ => .ok (Json.arr [])

/-- One iteration of the fallback loop on a script body: strip, skip if
empty, two-attempt parse (skip on failure), find candidates, and — when the
candidates are truthy — evaluate `len(candidates)` for the log line (a
`TypeError` there propagates) and report the winning value. -/
def blockStep (t : String) : PyRes (Option Json) :=
  let t' := pyStrip t
  if t' = "" then .ok none
  else
    match parseBlock t' with
    | none => .ok none
    | some data =>
        match findCandidates data with
        | .error e => .error e
        | .ok c =>
            if pyTruthy c then
              match pyLen c with
              | .ok _ => .ok (some c)
              | .error e => .error e
            else .ok none

/-- The fallback loop over all script bodies: the first body whose
`blockStep` reports a winner ends the loop; an exhausted loop returns the
empty list. -/
def jsonldFromScripts : List String → PyRes Json
  | [] => .ok (Json.arr [])
  | t :: rest =>
      match blockStep t with
      | .error e => .error e
      | .ok (some c) => .ok c
      | .ok none => jsonldFromScripts rest

/-- `extract_articles_from_jsonld`. -/
def extract_articles_from_jsonld (html : String) : PyRes Json :=
  jsonldFromScripts (findAllScripts html)

/-- The author-name comprehension
`[au.get('name', '') for au in authors if au.get('name')]`. -/
def collectAuthorNames : List Json → PyRes (List Json)
  | [] => .ok []
  | au :: rest =>
      match pyGetN au "name" with
      | .error e => .error e
      | .ok guard =>
          match pyGetD au "name" (Json.str "") with
          | .error e => .error e
          | .ok val =>
              match collectAuthorNames rest with
              | .error e => .error e
              | .ok names =>
                  .ok (if pyTruthy guard then val :: names else names)

/-- The body of the per-article loop of `normalize_articles_from_window_data`:
builds the canonical article dict for one raw preview record.  Every `.get`
raises `AttributeError` on a non-dict record — the loop body is outside the
`try` block, so such errors propagate. -/
def normalizeArticle (a : Json) : PyRes Json := do
  let authorsJ ← pyGetD a "authors" (Json.arr [])
  let aus ← pyIter authorsJ
  let names ← collectAuthorNames aus
  let rawUrl ← pyGetD a "url" (Json.str "")
  let fullUrl ← jFullUrl rawUrl
  let titleJ ← pyGetN a "title"
  let dtitleJ ← pyGetN a "display_title"
  let summaryJ ← pyGetD a "summary" (Json.str "")
  let about ← strip_html summaryJ
  let dpJ ← pyGetN a "date_published"
  let rlJ ← pyGetN a "release_date"
  let imgJ ← pyGetD a "image_url" (Json.str "")
  let colJ ← pyGetD a "column" (Json.str "")
  let catJ ← pyGetD a "category" (Json.str "")
  pure (Json.obj
    [("headline", pyOr titleJ (pyOr dtitleJ (Json.str ""))),
     ("about", Json.str about),
     ("datePublished", pyOr dpJ (pyOr rlJ (Json.str ""))),
     ("url", Json.str fullUrl),
     ("image", imgJ),
     ("author", Json.arr (names.map (fun n => Json.obj [("name", n)]))),
     ("_column", colJ),
     ("_category", catJ)])

/-- `normalizeArticle` over a section's records, in order. -/
def normalizeList : List Json → PyRes (List Json)
  | [] => .ok []
  | a :: rest =>
      match normalizeArticle a with
      | .error e => .error e
      | .ok art =>
          match normalizeList rest with
          | .error e => .error e
          | .ok arts => .ok (art :: arts)

/-- One section of `normalize_articles_from_window_data`:
`previews.get(section, [])` (an `AttributeError` on a non-dict `previews`
propagates — it is outside the `try` block) and the iteration over it. -/
def normalizeSection (previews : Json) (sect : String) : PyRes (List Json) :=
  match pyGetD previews sect (Json.arr []) with
  | .error e => .error e
  | .ok seq =>
      match pyIter seq with
      | .error e => .error e
      | .ok items => normalizeList items

/-- The nested-path navigation
`window_data['initialData']['issueData']['article_previews']`. -/
def previewsNav (wd : Json) : PyRes Json := do
  let a ← pySubscript wd "initialData"
  let b ← pySubscript a "issueData"
  pySubscript b "article_previews"

/-- `normalize_articles_from_window_data`: the nested-path navigation is
guarded by `except (KeyError, TypeError)` which yields the empty list; the
per-section loops are not guarded. -/
def normalize_articles_from_window_data (wd : Json) : PyRes (List Json) :=
  match previewsNav wd with
  | .error .keyError => .ok []
  | .error .typeError => .ok []
  | .error e => .error e
  | .ok previews => do
      let adv ← normalizeSection previews "advances"
      let dep ← normalizeSection previews "departments"
      let fea ← normalizeSection previews "features"
      pure (adv ++ dep ++ fea)

/-- `extract_articles_from_html`, parameterized by the fallback extractor so
that non-invocation of the fallback is expressible: Stage 1 runs first, and
the fallback is consulted only when `window.__DATA__` is missing or falsy or
normalization yields no articles. -/
def extract_with (fb : String → PyRes Json) (html : String) : PyRes Json :=
  match extract_window_data html with
  | some wd =>
      if pyTruthy wd then
        match normalize_articles_from_window_data wd with
        | .error e => .error e
        | .ok articles =>
            if articles.isEmpty then fb html else .ok (Json.arr articles)
      else fb html
  | none => fb html

/-- `extract_articles_from_html`: Stage 1 (`window.__DATA__`), then the
JSON-LD fallback. -/
def extract_articles_from_html (html : String) : PyRes Json :=
  extract_with extract_articles_from_jsonld html

/-- First 500 characters (`[:500]` slice). -/
def take500 (s : String) : String := String.mk (s.data.take 500)

/-- `extract_description`: `about` as a string or a dict wins; otherwise
`description`/`dek` as a string, dict, or list of strings (joined with
spaces and truncated to 500 characters); anything else yields the empty
string.  All `.get` calls are on the article dict itself. -/
def extract_description (a : Json) : PyRes Json :=
  match pyGetN a "about" with
  | .error e => .error e
  | .ok about =>
      match about with
      | Json.str s => .ok (Json.str s)
      | Json.obj kvs =>
          .ok (pyOr ((objFind kvs "description").getD Json.null)
                (pyOr ((objFind kvs "name").getD Json.null) (Json.str "")))
      | _ =>
          match pyGetN a "description" with
          | .error e => .error e
          | .ok dsc =>
              match pyGetN a "dek" with
              | .error e => .error e
              | .ok dek =>
                  let desc := pyOr dsc (pyOr dek (Json.str ""))
                  match desc with
                  | Json.str s => .ok (Json.str s)
                  | Json.obj kvs =>
                      .ok (pyOr ((objFind kvs "description").getD Json.null)
                            (pyOr ((objFind kvs "name").getD Json.null) (Json.str "")))
                  | Json.arr xs =>
                      .ok (Json.str (take500 (joinSep " "
                            (xs.filterMap (fun x =>
                              match x with
                              | Json.str s => some s
                              | _ => none)))))
                  | _ => .ok (Json.str "")

/-- `extract_image_url`: falsy yields the empty string, a plain string is
used as-is, a dict contributes `url` or `@id`, a non-empty list contributes
its first element under the same rules; anything else yields the empty
string. -/
def extract_image_url (v : Json) : Json :=
  if pyTruthy v then
    match v with
    | Json.str s => Json.str s
    | Json.obj kvs =>
        pyOr ((objFind kvs "url").getD Json.null)
          (pyOr ((objFind kvs "@id").getD Json.null) (Json.str ""))
    | Json.arr (first :: _) =>
        match first with
        | Json.str s => Json.str s
        | Json.obj kvs =>
            pyOr ((objFind kvs "url").getD Json.null)
              (pyOr ((objFind kvs "@id").getD Json.null) (Json.str ""))
        | _ => Json.str ""
    | _ => Json.str ""
  else Json.str ""

/-- The list scan inside `normalize_author_field`: the first plain string,
or the first dict with a truthy `name`, wins. -/
def authorFromList : List Json → Json
  | [] => Json.str ""
  | x :: rest =>
      match x with
      | Json.str s => Json.str s
      | Json.obj kvs =>
          if pyTruthy ((objFind kvs "name").getD Json.null) then
            (objFind kvs "name").getD Json.null
          else authorFromList rest
      | _ => authorFromList rest

/-- `normalize_author_field`: falsy yields the empty string; a string is
used as-is; a dict contributes `name` (default empty); a list is scanned by
`authorFromList`; anything else yields the empty string. -/
def normalize_author_field (v : Json) : Json :=
  if pyTruthy v then
    match v with
    | Json.str s => Json.str s
    | Json.obj kvs => (objFind kvs "name").getD (Json.str "")
    | Json.arr xs => authorFromList xs
    | _ => Json.str ""
  else Json.str ""

/-- The item title of `create_rss_feed`:
`_strip_html(article.get('headline') or article.get('name') or 'Untitled Article')`. -/
def itemTitle (a : Json) : PyRes String :=
  match pyGetN a "headline" with
  | .error e => .error e
  | .ok h =>
      match pyGetN a "name" with
      | .error e => .error e
      | .ok n => strip_html (pyOr h (pyOr n (Json.str "Untitled Article")))

/-- The item URL of `create_rss_feed`: `article.get('url') or ''`, joined
against the base when truthy and not `http`-prefixed (`.startswith` on a
truthy non-string raises `AttributeError`). -/
def itemUrl (a : Json) : PyRes String :=
  match pyGetN a "url" with
  | .error e => .error e
  | .ok u0 =>
      let u := pyOr u0 (Json.str "")
      if pyTruthy u then
        match u with
        | Json.str s => if strStartsWith s "http" then .ok s else .ok (urljoinBase s)
        | _ => .error .attributeError
      else .ok ""

/-- The guid pair of `create_rss_feed`: `guid_value = article_url or title`
and `is_permalink = 'true' if article_url.startswith('http') else 'false'`. -/
def itemGuidOf (u t : String) : String × String :=
  (if u ≠ "" then u else t, if strStartsWith u "http" then "true" else "false")

/-- The guid pair computed from an article record. -/
def itemGuid (a : Json) : PyRes (String × String) :=
  match itemTitle a with
  | .error e => .error e
  | .ok t =>
      match itemUrl a with
      | .error e => .error e
      | .ok u => .ok (itemGuidOf u t)

/-- The emitted image URL of `create_rss_feed`:
`extract_image_url(article.get('image', ''))`, joined against the base when
truthy (`urljoin` raises `TypeError` on a truthy non-string). -/
def itemImage (a : Json) : PyRes String :=
  match pyGetD a "image" (Json.str "") with
  | .error e => .error e
  | .ok img =>
      let raw := extract_image_url img
      if pyTruthy raw then
        match raw with
        | Json.str s => .ok (urljoinBase s)
        | _ => .error .typeError
      else .ok ""

/-- The item publication date of `create_rss_feed`:
`parse_pubdate_iso_to_rfc822(article.get('datePublished') or article.get('dateCreated') or '')`. -/
def itemDate (a : Json) : PyRes String :=
  match pyGetN a "datePublished" with
  | .error e => .error e
  | .ok dp =>
      match pyGetN a "dateCreated" with
      | .error e => .error e
      | .ok dc => .ok (parse_pubdate_iso_to_rfc822 (pyOr dp (pyOr dc (Json.str ""))))

/-- The author value of `create_rss_feed`:
`normalize_author_field(article.get('author'))`. -/
def itemAuthor (a : Json) : PyRes Json :=
  match pyGetN a "author" with
  | .error e => .error e
  | .ok au => .ok (normalize_author_field au)

/-- One iteration of the item loop of `create_rss_feed`: a non-dict article
is skipped (`continue`), a dict article contributes its `<item>` block,
each optional element emitted only when its value is truthy, followed by
the blank separator line. -/
def renderItem (a : Json) : PyRes (List String) :=
  match a with
  | Json.obj _ =>
      match itemTitle a with
      | .error e => .error e
      | .ok t =>
          match itemUrl a with
          | .error e => .error e
          | .ok u =>
              match extract_description a with
              | .error e => .error e
              | .ok d =>
                  match itemDate a with
                  | .error e => .error e
                  | .ok rfc =>
                      match itemImage a with
                      | .error e => .error e
                      | .ok img =>
                          match itemAuthor a with
                          | .error e => .error e
                          | .ok auth =>
                              let gp := itemGuidOf u t
                              .ok (["    <item>",
                                    "      <title>" ++ escapeStr t ++ "</title>"]
                                ++ (if u ≠ "" then
                                      ["      <link>" ++ escapeStr u ++ "</link>"]
                                    else [])
                                ++ (if pyTruthy d then
                                      ["      <description>" ++ escape_xml d ++ "</description>"]
                                    else [])
                                ++ (if rfc ≠ "" then
                                      ["      <pubDate>" ++ escapeStr rfc ++ "</pubDate>"]
                                    else [])
                                ++ (if pyTruthy auth then
                                      ["      <dc:creator>" ++ escape_xml auth ++ "</dc:creator>",
                                       "      <author>" ++ escape_xml auth ++ "</author>"]
                                    else [])
                                ++ ["      <guid isPermaLink=\"" ++ gp.2 ++ "\">" ++
                                      escapeStr gp.1 ++ "</guid>"]
                                ++ (if img ≠ "" then
                                      ["      <media:thumbnail url=\"" ++ escapeStr img ++ "\"/>",
                                       "      <media:content url=\"" ++ escapeStr img ++
                                         "\" medium=\"image\"/>",
                                       "      <enclosure url=\"" ++ escapeStr img ++
                                         "\" type=\"image/jpeg\"/>"]
                                    else [])
                                ++ ["    </item>", ""])
  | _ => .ok []

/-- The item loop of `create_rss_feed` over an explicit list, in order. -/
def renderItemsList : List Json → PyRes (List String)
  | [] => .ok []
  | a :: rest =>
      match renderItem a with
      | .error e => .error e
      | .ok lines =>
          match renderItemsList rest with
          | .error e => .error e
          | .ok more => .ok (lines ++ more)

/-- The item loop of `create_rss_feed` (`for article in articles` iterates
whatever value reached the serializer). -/
def renderItems (articles : Json) : PyRes (List String) :=
  match pyIter articles with
  | .error e => .error e
  | .ok l => renderItemsList l

/-- The fixed channel lines before `lastBuildDate`. -/
def rssHeaderPre : List String :=
  ["<?xml version=\"1.0\" encoding=\"UTF-8\"?>",
   "<rss version=\"2.0\" xmlns:atom=\"http://www.w3.org/2005/Atom\"" ++
     " xmlns:dc=\"http://purl.org/dc/elements/1.1/\"" ++
     " xmlns:media=\"http://search.yahoo.com/mrss/\">",
   "  <channel>",
   "    <title>" ++ escapeStr "Scientific American - Latest Issue" ++ "</title>",
   "    <link>" ++ escapeStr PAGE_URL ++ "</link>",
   "    <description>" ++ escapeStr "Latest articles from Scientific American magazine" ++
     "</description>",
   "    <language>en-us</language>"]

/-- The `lastBuildDate` line, the only line depending on the build time. -/
def lastBuildLine (buildDate : String) : String :=
  "    <lastBuildDate>" ++ buildDate ++ "</lastBuildDate>"

/-- The fixed channel lines after `lastBuildDate`. -/
def rssHeaderPost : List String :=
  ["    <atom:link href=\"https://raw.githubusercontent.com/YOUR_USERNAME/YOUR_REPO/main/feed.xml\"" ++
     " rel=\"self\" type=\"application/rss+xml\"/>",
   ""]

/-- The closing document lines. -/
def rssFooter : List String := ["  </channel>", "</rss>"]

/-- Python `'\n'.flatten`. -/
def joinNL : List String → String
  | [] => ""
  | [x] => x
  | x :: y :: rest => x ++ "\n" ++ joinNL (y :: rest)

/-- `create_rss_feed`, with the `datetime.utcnow()` build timestamp supplied
as a parameter (the only non-deterministic input of the serializer). -/
def create_rss_feed (buildDate : String) (articles : Json) : PyRes String :=
  match renderItems articles with
  | .error e => .error e
  | .ok items =>
      .ok (joinNL (rssHeaderPre ++ lastBuildLine buildDate :: (rssHeaderPost ++ items ++ rssFooter)))

/-- The extraction-and-serialization pipeline of `main`: extract articles
from the page text, fail the run when none were found (`noArticles` models
`main`'s failure exit), otherwise serialize. -/
def runFeed (buildDate : String) (html : String) : PyRes String :=
  match extract_articles_from_html html with
  | .error e => .error e
  | .ok arts =>
      if pyTruthy arts then create_rss_feed buildDate arts else .error .noArticles

/-! ### Theorems -/

theorem replaceChar_append (c : Char) (r : List Char) (l1 l2 : List Char) :
    replaceChar c r (l1 ++ l2) = replaceChar c r l1 ++ replaceChar c r l2 := by
  induction l1 with
  | nil => rfl
  | cons d t ih => simp [replaceChar, ih, List.append_assoc]

theorem escapeChars_append (l1 l2 : List Char) :
    escapeChars (l1 ++ l2) = escapeChars l1 ++ escapeChars l2 := by
  simp [escapeChars, replaceChar_append]

theorem escapeChars_singleton_safe (c : Char) (h1 : c ≠ '&') (h2 : c ≠ '<')
    (h3 : c ≠ '>') (h4 : c ≠ '"') (h5 : c ≠ aposChar) :
    escapeChars [c] = [c] := by
  simp [escapeChars, replaceChar, h1, h2, h3, h4, h5]

theorem escapeChars_join (l : List Char) :
    escapeChars l = (l.map (fun c => escapeChars [c])).flatten := by
  induction l with
  | nil => rfl
  | cons c t ih =>
      rw [show c :: t = [c] ++ t from rfl, escapeChars_append]
      simp [ih]

theorem escapeChars_piece (c : Char) :
    escapeChars [c] = "&amp;".data ∨ escapeChars [c] = "&lt;".data ∨
    escapeChars [c] = "&gt;".data ∨ escapeChars [c] = "&quot;".data ∨
    escapeChars [c] = "&apos;".data ∨
    (∃ d, escapeChars [c] = [d] ∧ d ≠ '&' ∧ d ≠ '<' ∧ d ≠ '>' ∧ d ≠ '"' ∧
      d ≠ aposChar) := by
  by_cases h1 : c = '&'
  · exact Or.inl (by subst h1; decide)
  by_cases h2 : c = '<'
  · exact Or.inr (Or.inl (by subst h2; decide))
  by_cases h3 : c = '>'
  · exact Or.inr (Or.inr (Or.inl (by subst h3; decide)))
  by_cases h4 : c = '"'
  · exact Or.inr (Or.inr (Or.inr (Or.inl (by subst h4; decide))))
  by_cases h5 : c = aposChar
  · exact Or.inr (Or.inr (Or.inr (Or.inr (Or.inl (by subst h5; decide)))))
  · exact Or.inr (Or.inr (Or.inr (Or.inr (Or.inr
      ⟨c, escapeChars_singleton_safe c h1 h2 h3 h4 h5, h1, h2, h3, h4, h5⟩))))

/-- C10: `escape_xml` output decomposes into the five XML entities and
single safe characters — so it contains no raw `<`, `>`, `"` or apostrophe,
and every `&` in it begins one of `&amp;`, `&lt;`, `&gt;`, `&quot;`,
`&apos;`; the empty (falsy) string input yields the empty string. -/
theorem C10_escape_xml :
    (∀ s : String, ∃ pieces : List (List Char),
        (escape_xml (Json.str s)).data = pieces.flatten ∧
        ∀ p ∈ pieces,
          p = "&amp;".data ∨ p = "&lt;".data ∨ p = "&gt;".data ∨
          p = "&quot;".data ∨ p = "&apos;".data ∨
          (∃ d, p = [d] ∧ d ≠ '&' ∧ d ≠ '<' ∧ d ≠ '>' ∧ d ≠ '"' ∧ d ≠ aposChar)) ∧
    (∀ s : String, ∀ c ∈ (escape_xml (Json.str s)).data,
        c ≠ '<' ∧ c ≠ '>' ∧ c ≠ '"' ∧ c ≠ aposChar) ∧
    escape_xml (Json.str "") = "" := by
  have hdecomp : ∀ s : String, ∃ pieces : List (List Char),
      (escape_xml (Json.str s)).data = pieces.flatten ∧
      ∀ p ∈ pieces,
        p = "&amp;".data ∨ p = "&lt;".data ∨ p = "&gt;".data ∨
        p = "&quot;".data ∨ p = "&apos;".data ∨
        (∃ d, p = [d] ∧ d ≠ '&' ∧ d ≠ '<' ∧ d ≠ '>' ∧ d ≠ '"' ∧ d ≠ aposChar) := by
    intro s
    by_cases h : s = ""
    · subst h
      exact ⟨[], by decide, by simp⟩
    · have ht : pyTruthy (Json.str s) = true := by simp [pyTruthy, h]
      refine ⟨s.data.map (fun c => escapeChars [c]), ?_, ?_⟩
      · simp only [escape_xml, ht, if_pos]
        exact escapeChars_join s.data
      · intro p hp
        rcases List.mem_map.mp hp with ⟨c, _, rfl⟩
        exact escapeChars_piece c
  refine ⟨hdecomp, ?_, by decide⟩
  intro s c hc
  rcases hdecomp s with ⟨pieces, hjoin, hpieces⟩
  rw [hjoin] at hc
  rcases List.mem_flatten.mp hc with ⟨p, hpmem, hcp⟩
  rcases hpieces p hpmem with h | h | h | h | h | ⟨d, rfl, hd⟩
  · subst h
    exact (show ∀ x ∈ "&amp;".data, x ≠ '<' ∧ x ≠ '>' ∧ x ≠ '"' ∧ x ≠ aposChar by decide) c hcp
  · subst h
    exact (show ∀ x ∈ "&lt;".data, x ≠ '<' ∧ x ≠ '>' ∧ x ≠ '"' ∧ x ≠ aposChar by decide) c hcp
  · subst h
    exact (show ∀ x ∈ "&gt;".data, x ≠ '<' ∧ x ≠ '>' ∧ x ≠ '"' ∧ x ≠ aposChar by decide) c hcp
  · subst h
    exact (show ∀ x ∈ "&quot;".data, x ≠ '<' ∧ x ≠ '>' ∧ x ≠ '"' ∧ x ≠ aposChar by decide) c hcp
  · subst h
    exact (show ∀ x ∈ "&apos;".data, x ≠ '<' ∧ x ≠ '>' ∧ x ≠ '"' ∧ x ≠ aposChar by decide) c hcp
  · rcases List.mem_singleton.mp hcp with rfl
    exact ⟨hd.2.1, hd.2.2.1, hd.2.2.2.1, hd.2.2.2.2⟩

/-- C4 (code bug): on a page whose `window.__DATA__` parses but maps
`article_previews` to a string, `previews.get(section, [])` raises
`AttributeError` — the surrounding `except (KeyError, TypeError)` does not
catch it, so `extract_articles_from_html` raises instead of returning a
list, contradicting the never-raises contract. -/
theorem C4_extraction_raises_attributeerror :
    extract_articles_from_html
      "window.__DATA__ = \x7b\"initialData\": \x7b\"issueData\": \x7b\"article_previews\": \"oops\"\x7d\x7d\x7d;"
      = .error .attributeError := by
  rfl

/-- C5: whenever Stage 1 succeeds — `window.__DATA__` is found and truthy
and normalization yields a non-empty article list — the pipeline returns
exactly that list, for every possible fallback extractor; in particular the
JSON-LD fallback is never consulted. -/
theorem C5_primary_success_skips_fallback :
    ∀ (fb : String → PyRes Json) (html : String) (wd : Json) (arts : List Json),
      extract_window_data html = some wd → pyTruthy wd = true →
      normalize_articles_from_window_data wd = .ok arts → arts ≠ [] →
      extract_with fb html = .ok (Json.arr arts) ∧
        extract_articles_from_html html = .ok (Json.arr arts) := by
  intro fb html wd arts h1 h2 h3 h4
  constructor
  · simp [extract_with, h1, h2, h3, List.isEmpty_iff, h4]
  · simp [extract_articles_from_html, extract_with, h1, h2, h3, List.isEmpty_iff, h4]

/-- Witness for C5 at a concrete page, with an adversarial fallback that
would raise if it were ever invoked. -/
theorem C5_primary_success_skips_fallback_witness :
    extract_with (fun _ => .error .typeError)
        "window.__DATA__ = \x7b\"initialData\": \x7b\"issueData\": \x7b\"article_previews\": \x7b\"advances\": [\x7b\"title\": \"T\"\x7d]\x7d\x7d\x7d\x7d;"
      = .ok (Json.arr [Json.obj
        [("headline", Json.str "T"), ("about", Json.str ""),
         ("datePublished", Json.str ""), ("url", Json.str ""),
         ("image", Json.str ""), ("author", Json.arr []),
         ("_column", Json.str ""), ("_category", Json.str "")]]) ∧
      extract_articles_from_html
        "window.__DATA__ = \x7b\"initialData\": \x7b\"issueData\": \x7b\"article_previews\": \x7b\"advances\": [\x7b\"title\": \"T\"\x7d]\x7d\x7d\x7d\x7d;"
      = .ok (Json.arr [Json.obj
        [("headline", Json.str "T"), ("about", Json.str ""),
         ("datePublished", Json.str ""), ("url", Json.str ""),
         ("image", Json.str ""), ("author", Json.arr []),
         ("_column", Json.str ""), ("_category", Json.str "")]]) :=
  C5_primary_success_skips_fallback (fun _ => .error .typeError) _ _ _
    rfl rfl rfl (by simp)

/-- C7: a JSON-LD block that fails strict parsing but parses after the
trailing-comma repair is recovered by the two-attempt path (first conjunct),
a block that still fails after repair is skipped without raising (second
conjunct), and a recovered block is actually used by the fallback loop when
it carries truthy candidates (third conjunct). -/
theorem C7_repair_and_retry :
    (∀ t d, jsonParse t = none → jsonParse (repairJson t) = some d →
       parseBlock t = some d) ∧
    (∀ t rest, parseBlock (pyStrip t) = none →
       jsonldFromScripts (t :: rest) = jsonldFromScripts rest) ∧
    (∀ t rest d c n, jsonParse (pyStrip t) = none →
       jsonParse (repairJson (pyStrip t)) = some d →
       findCandidates d = .ok c → pyTruthy c = true → pyLen c = .ok n →
       jsonldFromScripts (t :: rest) = .ok c) := by
  refine ⟨?_, ?_, ?_⟩
  · intro t d h1 h2
    simp [parseBlock, h1, h2]
  · intro t rest h
    by_cases h0 : pyStrip t = ""
    · simp [jsonldFromScripts, blockStep, h0]
    · simp [jsonldFromScripts, blockStep, h0, h]
  · intro t rest d c n h1 h2 h3 h4 h5
    have h0 : pyStrip t ≠ "" := by
      intro h0
      rw [h0] at h2
      have hrep : jsonParse (repairJson "") = none := rfl
      rw [hrep] at h2
      cases h2
    simp [jsonldFromScripts, blockStep, h0, parseBlock, h1, h2, h3, h4, h5]

/-- Witness for C7: a block with trailing commas before `]` and the closing
brace is recovered and its `hasPart` wins the fallback loop. -/
theorem C7_repair_and_retry_witness :
    jsonldFromScripts
        ["\x7b\"@type\": \"PublicationIssue\", \"hasPart\": [\x7b\"headline\": \"W\"\x7d,],\x7d"]
      = .ok (Json.arr [Json.obj [("headline", Json.str "W")]]) :=
  C7_repair_and_retry.2.2
    "\x7b\"@type\": \"PublicationIssue\", \"hasPart\": [\x7b\"headline\": \"W\"\x7d,],\x7d"
    [] _ _ _ rfl rfl rfl rfl rfl

set_option maxRecDepth 4000 in
/-- C6 counterexample: the first JSON-LD block does contain an entry typed
`PublicationIssue` (with no `hasPart`), yet the fallback extractor returns
the sub-article list of the *second* block — so the first matching block
does not win as claimed: its empty candidate list merely makes the loop move
on. -/
theorem C6_counterexample :
    findAllScripts
        "<script type=\"application/ld+json\">\x7b\"@type\": \"PublicationIssue\"\x7d</script><script type=\"application/ld+json\">\x7b\"@type\": \"PublicationIssue\", \"hasPart\": [\x7b\"headline\": \"A\"\x7d]\x7d</script>"
      = ["\x7b\"@type\": \"PublicationIssue\"\x7d",
         "\x7b\"@type\": \"PublicationIssue\", \"hasPart\": [\x7b\"headline\": \"A\"\x7d]\x7d"] ∧
    jsonParse "\x7b\"@type\": \"PublicationIssue\"\x7d"
      = some (Json.obj [("@type", Json.str "PublicationIssue")]) ∧
    extract_articles_from_jsonld
        "<script type=\"application/ld+json\">\x7b\"@type\": \"PublicationIssue\"\x7d</script><script type=\"application/ld+json\">\x7b\"@type\": \"PublicationIssue\", \"hasPart\": [\x7b\"headline\": \"A\"\x7d]\x7d</script>"
      = .ok (Json.arr [Json.obj [("headline", Json.str "A")]]) ∧
    Json.arr [Json.obj [("headline", Json.str "A")]] ≠ Json.arr [] := by
  refine ⟨rfl, rfl, rfl, ?_⟩
  intro h
  injection h with h1
  cases h1

/-- C6 (amended): the first block whose first issue-typed entry carries a
*truthy* `hasPart` wins (blocks whose step reports no winner — empty, or
unparseable, or whose matching entry has an empty or missing `hasPart` — are
skipped), and when every block is skipped the result is the empty list. -/
theorem C6_first_truthy_block_wins :
    (∀ (pre : List String) (t : String) (post : List String) (c : Json),
       (∀ u ∈ pre, blockStep u = .ok none) →
       blockStep t = .ok (some c) →
       jsonldFromScripts (pre ++ t :: post) = .ok c) ∧
    (∀ scripts : List String, (∀ u ∈ scripts, blockStep u = .ok none) →
       jsonldFromScripts scripts = .ok (Json.arr [])) := by
  constructor
  · intro pre t post c hpre ht
    induction pre with
    | nil => simp [jsonldFromScripts, ht]
    | cons u pre ih =>
        have hu : blockStep u = .ok none := hpre u (by simp)
        have hrest : ∀ v ∈ pre, blockStep v = .ok none := by
          intro v hv
          exact hpre v (by simp [hv])
        simp only [List.cons_append, jsonldFromScripts, hu]
        exact ih hrest
  · intro scripts hall
    induction scripts with
    | nil => rfl
    | cons u rest ih =>
        have hu : blockStep u = .ok none := hall u (by simp)
        have hrest : ∀ v ∈ rest, blockStep v = .ok none := by
          intro v hv
          exact hall v (by simp [hv])
        simp only [jsonldFromScripts, hu]
        exact ih hrest

/-- Witness for C6's amended statement: the empty-`hasPart` block is
skipped and the second block's candidates win. -/
theorem C6_first_truthy_block_wins_witness :
    jsonldFromScripts
        ["\x7b\"@type\": \"PublicationIssue\"\x7d",
         "\x7b\"@type\": \"PublicationIssue\", \"hasPart\": [\x7b\"headline\": \"A\"\x7d]\x7d"]
      = .ok (Json.arr [Json.obj [("headline", Json.str "A")]]) :=
  C6_first_truthy_block_wins.1
    ["\x7b\"@type\": \"PublicationIssue\"\x7d"]
    "\x7b\"@type\": \"PublicationIssue\", \"hasPart\": [\x7b\"headline\": \"A\"\x7d]\x7d"
    [] _ (by intro u hu; rw [List.mem_singleton] at hu; subst hu; rfl) rfl

/-- C8 counterexample: an article whose `url` value is the string `httpfoo`
gets `isPermaLink="true"` (the code tests only the literal prefix `http`)
even though the guid `httpfoo` carries no URI scheme and so is not an
absolute URL — the flag is not `'true' exactly when the guid is an absolute
URL`. -/
theorem C8_counterexample :
    itemGuid (Json.obj [("url", Json.str "httpfoo"), ("headline", Json.str "X")])
        = .ok ("httpfoo", "true") ∧
      hasScheme "httpfoo" = false := by
  exact ⟨rfl, by decide⟩

/-- C8 (amended): the guid is the (possibly base-joined) article URL when
that is non-empty and otherwise the stripped headline; `isPermaLink` is
`"true"` exactly when the URL value begins with the literal prefix `http` —
which coincides with absoluteness for well-formed http(s) URLs but not in
general — and the flag is `"false"` whenever the guid fell back to the
headline. -/
theorem C8_guid_flag_amended :
    ∀ (a : Json) (g f : String), itemGuid a = .ok (g, f) →
      (f = "true" ∨ f = "false") ∧
      (f = "true" → g ≠ "" ∧ strStartsWith g "http" = true ∧ itemUrl a = .ok g) ∧
      (itemUrl a = .ok "" → itemTitle a = .ok g ∧ f = "false") ∧
      (f = "false" → ∀ v, itemUrl a = .ok v → strStartsWith v "http" = false) := by
  intro a g f h
  unfold itemGuid at h
  cases ht : itemTitle a with
  | error e => rw [ht] at h; cases h
  | ok t =>
      rw [ht] at h
      cases hu : itemUrl a with
      | error e => rw [hu] at h; cases h
      | ok u =>
          rw [hu] at h
          injection h with hgf
          rw [itemGuidOf, Prod.ext_iff] at hgf
          obtain ⟨hg, hf⟩ := hgf
          dsimp only at hg hf
          subst hg
          subst hf
          refine ⟨?_, ?_, ?_, ?_⟩
          · by_cases hs : strStartsWith u "http" <;> simp [hs]
          · intro hft
            by_cases hs : strStartsWith u "http"
            · have hune : u ≠ "" := by
                intro h0
                rw [h0] at hs
                exact absurd hs (by decide)
              rw [if_pos hune]
              exact ⟨hune, hs, rfl⟩
            · rw [if_neg hs] at hft
              exact absurd hft (by decide)
          · intro hue
            injection hue with hu0
            subst hu0
            refine ⟨?_, by decide⟩
            rw [if_neg (by simp)]
          · intro hff v hv
            injection hv with hv0
            subst hv0
            by_cases hs : strStartsWith u "http"
            · rw [if_pos hs] at hff
              exact absurd hff (by decide)
            · simpa using hs

/-- Witness for C8's amended statement at an article with a well-formed
absolute URL. -/
theorem C8_guid_flag_amended_witness :
    ("https://example.org/x" : String) ≠ "" ∧
      strStartsWith "https://example.org/x" "http" = true ∧
      itemUrl (Json.obj [("url", Json.str "https://example.org/x")])
        = .ok "https://example.org/x" :=
  ((C8_guid_flag_amended (Json.obj [("url", Json.str "https://example.org/x")])
    "https://example.org/x" "true" rfl).2.1) rfl

theorem hasScheme_https_colon (q : String) : hasScheme ("https:" ++ q) = true := by
  have hd : ("https:" ++ q).data = 'h' :: 't' :: 't' :: 'p' :: 's' :: ':' :: q.data := by
    rw [String.data_append]; rfl
  simp [hasScheme, schemeSplit, hd, List.takeWhile, isSchemeChar]

theorem hasScheme_base_append (x : String) : hasScheme (BASE_URL ++ x) = true := by
  have hb : BASE_URL = "https:" ++ "//www.scientificamerican.com" := rfl
  rw [hb, String.append_assoc]
  exact hasScheme_https_colon _

theorem hasScheme_joinRelPath (p : String) : hasScheme (joinRelPath p) = true := by
  unfold joinRelPath
  split
  · exact hasScheme_https_colon _
  · by_cases hp : (breakOnChar '?' (breakOnChar '#' p.data).1).1.isEmpty
    · simp only [hp, if_pos]
      rw [String.append_assoc]
      exact hasScheme_base_append _
    · simp only [hp, if_neg, Bool.false_eq_true, if_false]
      rw [String.append_assoc, String.append_assoc, String.append_assoc]
      exact hasScheme_base_append _

theorem hasScheme_urljoinBase (r : String) (h : r ≠ "") :
    hasScheme (urljoinBase r) = true := by
  unfold urljoinBase
  rw [if_neg h]
  cases hs : schemeSplit r with
  | none => exact hasScheme_joinRelPath r
  | some pair =>
      obtain ⟨sch, rest⟩ := pair
      dsimp only
      by_cases hl : strToLower sch = "https"
      · rw [if_pos hl]
        split
        · simp [hasScheme, hs]
        · exact hasScheme_joinRelPath _
      · rw [if_neg hl]
        simp [hasScheme, hs]

theorem jFullUrl_spec (r : Json) (u : String) (h : jFullUrl r = .ok u) :
    u = "" ∨ hasScheme u = true := by
  unfold jFullUrl at h
  by_cases ht : pyTruthy r = true
  · rw [if_pos ht] at h
    cases r with
    | str s =>
        simp only [jUrljoin] at h
        injection h with h
        have hsne : s ≠ "" := by
          intro h0
          rw [h0] at ht
          exact absurd ht (by decide)
        right
        rw [← h]
        exact hasScheme_urljoinBase s hsne
    | null => cases h
    | bool b => cases h
    | int n => cases h
    | arr xs => cases h
    | obj kvs => cases h
  · rw [if_neg ht] at h
    injection h with h
    exact Or.inl h.symm

theorem normalizeArticle_ok (a art : Json) (h : normalizeArticle a = .ok art) :
    ∃ (names : List Json) (fullUrl : String) (titleJ dtitleJ : Json)
      (about : String) (dpJ rlJ imgJ colJ catJ rawUrl : Json),
      pyGetN a "title" = .ok titleJ ∧ pyGetN a "display_title" = .ok dtitleJ ∧
      pyGetD a "url" (Json.str "") = .ok rawUrl ∧ jFullUrl rawUrl = .ok fullUrl ∧
      (fullUrl = "" ∨ hasScheme fullUrl = true) ∧
      art = Json.obj
        [("headline", pyOr titleJ (pyOr dtitleJ (Json.str ""))),
         ("about", Json.str about),
         ("datePublished", pyOr dpJ (pyOr rlJ (Json.str ""))),
         ("url", Json.str fullUrl),
         ("image", imgJ),
         ("author", Json.arr (names.map (fun n => Json.obj [("name", n)]))),
         ("_column", colJ),
         ("_category", catJ)] := by
  unfold normalizeArticle at h
  simp only [bind, Except.bind, pure, Except.pure] at h
  cases h1 : pyGetD a "authors" (Json.arr []) <;> simp only [h1] at h <;> try exact (Except.noConfusion h)
  case ok authorsJ =>
  cases h2 : pyIter authorsJ <;> simp only [h2] at h <;> try exact (Except.noConfusion h)
  case ok aus =>
  cases h3 : collectAuthorNames aus <;> simp only [h3] at h <;> try exact (Except.noConfusion h)
  case ok names =>
  cases h4 : pyGetD a "url" (Json.str "") <;> simp only [h4] at h <;> try exact (Except.noConfusion h)
  case ok rawUrl =>
  cases h5 : jFullUrl rawUrl <;> simp only [h5] at h <;> try exact (Except.noConfusion h)
  case ok fullUrl =>
  cases h6 : pyGetN a "title" <;> simp only [h6] at h <;> try exact (Except.noConfusion h)
  case ok titleJ =>
  cases h7 : pyGetN a "display_title" <;> simp only [h7] at h <;> try exact (Except.noConfusion h)
  case ok dtitleJ =>
  cases h8 : pyGetD a "summary" (Json.str "") <;> simp only [h8] at h <;> try exact (Except.noConfusion h)
  case ok summaryJ =>
  cases h9 : strip_html summaryJ <;> simp only [h9] at h <;> try exact (Except.noConfusion h)
  case ok about =>
  cases h10 : pyGetN a "date_published" <;> simp only [h10] at h <;> try exact (Except.noConfusion h)
  case ok dpJ =>
  cases h11 : pyGetN a "release_date" <;> simp only [h11] at h <;> try exact (Except.noConfusion h)
  case ok rlJ =>
  cases h12 : pyGetD a "image_url" (Json.str "") <;> simp only [h12] at h <;> try exact (Except.noConfusion h)
  case ok imgJ =>
  cases h13 : pyGetD a "column" (Json.str "") <;> simp only [h13] at h <;> try exact (Except.noConfusion h)
  case ok colJ =>
  cases h14 : pyGetD a "category" (Json.str "") <;> simp only [h14] at h <;> try exact (Except.noConfusion h)
  case ok catJ =>
  injection h with h
  exact ⟨names, fullUrl, titleJ, dtitleJ, about, dpJ, rlJ, imgJ, colJ, catJ, rawUrl,
    rfl, rfl, rfl, h5, jFullUrl_spec rawUrl fullUrl h5, h.symm⟩

theorem normalizeList_mem (l arts : List Json) (h : normalizeList l = .ok arts) :
    ∀ a ∈ arts, ∃ raw, normalizeArticle raw = .ok a := by
  induction l generalizing arts with
  | nil =>
      unfold normalizeList at h
      injection h with h
      subst h
      intro a ha
      cases ha
  | cons x t ih =>
      unfold normalizeList at h
      cases hx : normalizeArticle x <;> rw [hx] at h <;> try exact (Except.noConfusion h)
      case ok art =>
      cases hrest : normalizeList t <;> rw [hrest] at h <;> try exact (Except.noConfusion h)
      case ok arts' =>
      injection h with h
      subst h
      intro a ha
      rcases List.mem_cons.mp ha with rfl | ha'
      · exact ⟨x, hx⟩
      · exact ih arts' hrest a ha'

theorem normalizeSection_mem (p : Json) (sect : String) (arts : List Json)
    (h : normalizeSection p sect = .ok arts) :
    ∀ a ∈ arts, ∃ raw, normalizeArticle raw = .ok a := by
  unfold normalizeSection at h
  cases h1 : pyGetD p sect (Json.arr []) <;> simp only [h1] at h <;> try exact (Except.noConfusion h)
  case ok seq =>
  cases h2 : pyIter seq <;> simp only [h2] at h <;> try exact (Except.noConfusion h)
  case ok items =>
  exact normalizeList_mem items arts h

theorem normalize_wd_mem (wd : Json) (arts : List Json)
    (h : normalize_articles_from_window_data wd = .ok arts) :
    ∀ a ∈ arts, ∃ raw, normalizeArticle raw = .ok a := by
  unfold normalize_articles_from_window_data at h
  cases hnav : previewsNav wd with
  | error e =>
      rw [hnav] at h
      cases e <;> simp only [] at h <;> try exact (Except.noConfusion h)
      case keyError =>
        injection h with h
        subst h
        intro a ha
        cases ha
      case typeError =>
        injection h with h
        subst h
        intro a ha
        cases ha
  | ok previews =>
      rw [hnav] at h
      simp only [bind, Except.bind, pure, Except.pure] at h
      cases hadv : normalizeSection previews "advances" <;> simp only [hadv] at h <;>
        try exact (Except.noConfusion h)
      case ok adv =>
      cases hdep : normalizeSection previews "departments" <;> simp only [hdep] at h <;>
        try exact (Except.noConfusion h)
      case ok dep =>
      cases hfea : normalizeSection previews "features" <;> simp only [hfea] at h <;>
        try exact (Except.noConfusion h)
      case ok fea =>
      injection h with h
      subst h
      intro a ha
      rcases List.mem_append.mp ha with ha' | hfeam
      · rcases List.mem_append.mp ha' with hadvm | hdepm
        · exact normalizeSection_mem previews "advances" adv hadv a hadvm
        · exact normalizeSection_mem previews "departments" dep hdep a hdepm
      · exact normalizeSection_mem previews "features" fea hfea a hfeam

theorem itemImage_absolute (a : Json) (s : String) (h : itemImage a = .ok s)
    (hne : s ≠ "") : hasScheme s = true := by
  unfold itemImage at h
  cases hg : pyGetD a "image" (Json.str "") <;> simp only [hg] at h <;>
    try exact (Except.noConfusion h)
  case ok img =>
  by_cases ht : pyTruthy (extract_image_url img) = true
  · rw [if_pos ht] at h
    cases hei : extract_image_url img with
    | str s' =>
        rw [hei] at h
        injection h with h
        have hs'ne : s' ≠ "" := by
          intro h0
          rw [hei, h0] at ht
          exact absurd ht (by decide)
        rw [← h]
        exact hasScheme_urljoinBase s' hs'ne
    | null => rw [hei] at h; exact (Except.noConfusion h)
    | bool b => rw [hei] at h; exact (Except.noConfusion h)
    | int n => rw [hei] at h; exact (Except.noConfusion h)
    | arr xs => rw [hei] at h; exact (Except.noConfusion h)
    | obj kvs => rw [hei] at h; exact (Except.noConfusion h)
  · rw [if_neg ht] at h
    injection h with h
    exact absurd h.symm hne

set_option maxRecDepth 4000 in
/-- C2 counterexample: a raw record with the relative image path `foo.jpg`
is normalized into a canonical article whose `image` field is still the
bare relative path `foo.jpg` (no scheme) — so a bare relative path does
reach the feed serializer in the `image` field; it is only resolved inside
the serializer. -/
theorem C2_counterexample :
    normalize_articles_from_window_data
        (Json.obj [("initialData", Json.obj [("issueData", Json.obj
          [("article_previews", Json.obj [("advances", Json.arr
            [Json.obj [("image_url", Json.str "foo.jpg"), ("url", Json.str "/a")]])])])])])
      = .ok [Json.obj
        [("headline", Json.str ""), ("about", Json.str ""),
         ("datePublished", Json.str ""),
         ("url", Json.str "https://www.scientificamerican.com/a"),
         ("image", Json.str "foo.jpg"), ("author", Json.arr []),
         ("_column", Json.str ""), ("_category", Json.str "")]] ∧
      hasScheme "foo.jpg" = false := by
  exact ⟨rfl, by decide⟩

/-- C2 (amended): the canonical `url` is absolute (scheme-carrying) whenever
it is non-empty, and the image URL the serializer actually emits is absolute
whenever it is non-empty — but the canonical `image` field itself may hold a
bare relative path, which the serializer resolves against the site base. -/
theorem C2_absolute_urls_amended :
    (∀ (wd : Json) (arts : List Json),
       normalize_articles_from_window_data wd = .ok arts →
       ∀ a ∈ arts, ∀ kvs, a = Json.obj kvs →
       ∀ u, objFind kvs "url" = some (Json.str u) → u ≠ "" →
       hasScheme u = true) ∧
    (∀ (a : Json) (s : String), itemImage a = .ok s → s ≠ "" →
       hasScheme s = true) := by
  constructor
  · intro wd arts h a ha kvs hkvs u hu hune
    obtain ⟨raw, hraw⟩ := normalize_wd_mem wd arts h a ha
    obtain ⟨names, fullUrl, titleJ, dtitleJ, about, dpJ, rlJ, imgJ, colJ, catJ,
      rawUrl, _, _, _, _, hspec, hart⟩ := normalizeArticle_ok raw a hraw
    rw [hkvs] at hart
    injection hart with hart
    subst hart
    replace hu : some (Json.str fullUrl) = some (Json.str u) := hu
    injection hu with hu
    injection hu with hu
    subst hu
    rcases hspec with hempty | habs
    · exact absurd hempty hune
    · exact habs
  · intro a s h hne
    exact itemImage_absolute a s h hne

/-- Witness for C2's amended statement: a concrete normalized article with a
non-empty absolute `url`, and a concrete emitted image URL. -/
theorem C2_absolute_urls_amended_witness :
    hasScheme "https://www.scientificamerican.com/a" = true ∧
      hasScheme "https://www.scientificamerican.com/x.png" = true := by
  constructor
  · exact C2_absolute_urls_amended.1
      (Json.obj [("initialData", Json.obj [("issueData", Json.obj
        [("article_previews", Json.obj [("advances", Json.arr
          [Json.obj [("url", Json.str "/a")]])])])])])
      [Json.obj
        [("headline", Json.str ""), ("about", Json.str ""),
         ("datePublished", Json.str ""),
         ("url", Json.str "https://www.scientificamerican.com/a"),
         ("image", Json.str ""), ("author", Json.arr []),
         ("_column", Json.str ""), ("_category", Json.str "")]]
      rfl
      (Json.obj
        [("headline", Json.str ""), ("about", Json.str ""),
         ("datePublished", Json.str ""),
         ("url", Json.str "https://www.scientificamerican.com/a"),
         ("image", Json.str ""), ("author", Json.arr []),
         ("_column", Json.str ""), ("_category", Json.str "")])
      (by simp)
      [("headline", Json.str ""), ("about", Json.str ""),
       ("datePublished", Json.str ""),
       ("url", Json.str "https://www.scientificamerican.com/a"),
       ("image", Json.str ""), ("author", Json.arr []),
       ("_column", Json.str ""), ("_category", Json.str "")]
      rfl "https://www.scientificamerican.com/a" rfl (by simp)
  · exact C2_absolute_urls_amended.2 (Json.obj [("image", Json.str "x.png")])
      "https://www.scientificamerican.com/x.png" rfl (by simp)

theorem itemTitle_default (kvs : List (String × Json))
    (h1 : pyTruthy ((objFind kvs "headline").getD Json.null) = false)
    (h2 : pyTruthy ((objFind kvs "name").getD Json.null) = false) :
    itemTitle (Json.obj kvs) = .ok "Untitled Article" := by
  unfold itemTitle
  simp only [pyGetN, pyOr, h1, h2, Bool.false_eq_true, if_false]
  rfl

set_option maxRecDepth 4000 in
/-- C3 counterexample: a raw record with no headline-source fields at all is
normalized into a canonical article whose `headline` field is the *empty
string*, not the placeholder `Untitled Article` — the placeholder is only
substituted later, by the serializer. -/
theorem C3_counterexample :
    normalize_articles_from_window_data
        (Json.obj [("initialData", Json.obj [("issueData", Json.obj
          [("article_previews", Json.obj [("advances", Json.arr
            [Json.obj []])])])])])
      = .ok [Json.obj
        [("headline", Json.str ""), ("about", Json.str ""),
         ("datePublished", Json.str ""), ("url", Json.str ""),
         ("image", Json.str ""), ("author", Json.arr []),
         ("_column", Json.str ""), ("_category", Json.str "")]] ∧
      ("" : String) ≠ "Untitled Article" := by
  exact ⟨rfl, by decide⟩

/-- C3 (amended): the normalizer stores an *empty* headline when `title` and
`display_title` are both absent or falsy; the serializer substitutes
`Untitled Article` for the emitted item title whenever `headline` and `name`
are both absent or falsy — so emitted titles in that case are the
placeholder, while the canonical headline field itself is empty. -/
theorem C3_headline_default_amended :
    (∀ (kvs : List (String × Json)) (art : Json),
       normalizeArticle (Json.obj kvs) = .ok art →
       pyTruthy ((objFind kvs "title").getD Json.null) = false →
       pyTruthy ((objFind kvs "display_title").getD Json.null) = false →
       ∃ kvs', art = Json.obj kvs' ∧
         objFind kvs' "headline" = some (Json.str "")) ∧
    (∀ kvs : List (String × Json),
       pyTruthy ((objFind kvs "headline").getD Json.null) = false →
       pyTruthy ((objFind kvs "name").getD Json.null) = false →
       itemTitle (Json.obj kvs) = .ok "Untitled Article") := by
  constructor
  · intro kvs art h htitle hdtitle
    obtain ⟨names, fullUrl, titleJ, dtitleJ, about, dpJ, rlJ, imgJ, colJ, catJ,
      rawUrl, ht, hdt, _, _, _, hart⟩ := normalizeArticle_ok (Json.obj kvs) art h
    replace ht : Except.ok ((objFind kvs "title").getD Json.null) = Except.ok titleJ := ht
    replace hdt : Except.ok ((objFind kvs "display_title").getD Json.null)
        = Except.ok dtitleJ := hdt
    injection ht with ht
    injection hdt with hdt
    rw [← ht] at hart
    rw [← hdt] at hart
    refine ⟨_, hart, ?_⟩
    simp only [pyOr, htitle, hdtitle, Bool.false_eq_true, if_false]
    rfl
  · intro kvs h1 h2
    exact itemTitle_default kvs h1 h2

/-- Witness for C3's amended statement on a record with none of the
headline-source fields. -/
theorem C3_headline_default_amended_witness :
    (∃ kvs', Json.obj
        [("headline", Json.str ""), ("about", Json.str ""),
         ("datePublished", Json.str ""), ("url", Json.str ""),
         ("image", Json.str ""), ("author", Json.arr []),
         ("_column", Json.str ""), ("_category", Json.str "")] = Json.obj kvs' ∧
       objFind kvs' "headline" = some (Json.str "")) ∧
      itemTitle (Json.obj [("foo", Json.int 1)]) = .ok "Untitled Article" := by
  constructor
  · exact C3_headline_default_amended.1 [("foo", Json.int 1)]
      (Json.obj
        [("headline", Json.str ""), ("about", Json.str ""),
         ("datePublished", Json.str ""), ("url", Json.str ""),
         ("image", Json.str ""), ("author", Json.arr []),
         ("_column", Json.str ""), ("_category", Json.str "")])
      rfl (by decide) (by decide)
  · exact C3_headline_default_amended.2 [("foo", Json.int 1)] (by decide) (by decide)

theorem joinNL_cons (x : String) (l : List String) (hl : l ≠ []) :
    joinNL (x :: l) = x ++ "\n" ++ joinNL l := by
  cases l with
  | nil => exact absurd rfl hl
  | cons y ys => rfl

theorem joinNL_append (a b : List String) (ha : a ≠ []) (hb : b ≠ []) :
    joinNL (a ++ b) = joinNL a ++ "\n" ++ joinNL b := by
  induction a with
  | nil => exact absurd rfl ha
  | cons x t ih =>
      cases t with
      | nil =>
          rw [List.cons_append, List.nil_append, joinNL_cons x b hb]
          rfl
      | cons z zs =>
          rw [List.cons_append, joinNL_cons x ((z :: zs) ++ b) (by simp),
            joinNL_cons x (z :: zs) (by simp), ih (by simp)]
          simp [String.append_assoc]

theorem renderItemsList_cons (a : Json) (t : List Json) :
    renderItemsList (a :: t) =
      (match renderItem a with
       | .error e => .error e
       | .ok lines =>
           match renderItemsList t with
           | .error e => .error e
           | .ok more => .ok (lines ++ more)) := rfl

theorem renderItemsList_append (l1 l2 : List Json) :
    renderItemsList (l1 ++ l2) = (do
      let x ← renderItemsList l1
      let y ← renderItemsList l2
      pure (x ++ y)) := by
  induction l1 with
  | nil =>
      cases h : renderItemsList l2 <;>
        simp [renderItemsList, bind, Except.bind, h, pure, Except.pure]
  | cons a t ih =>
      simp only [List.cons_append]
      rw [renderItemsList_cons, renderItemsList_cons]
      cases ha : renderItem a with
      | error e => simp [bind, Except.bind]
      | ok lines =>
          simp only [bind, Except.bind] at ih ⊢
          rw [ih]
          cases ht : renderItemsList t <;> cases h2 : renderItemsList l2 <;>
            simp [pure, Except.pure, List.append_assoc]

/-- C9: the pipeline is deterministic — two runs on the same page text
produce outputs that are byte-identical except for the injected build
timestamp (the outputs share one prefix and one suffix around it) — and item
rendering distributes over list concatenation, so feed items appear exactly
in canonical-list order. -/
theorem C9_idempotent_modulo_build_date :
    (∀ (html b1 b2 o1 o2 : String),
       runFeed b1 html = .ok o1 → runFeed b2 html = .ok o2 →
       ∃ pre post, o1 = pre ++ b1 ++ post ∧ o2 = pre ++ b2 ++ post) ∧
    (∀ l1 l2 : List Json,
       renderItemsList (l1 ++ l2) = (do
         let x ← renderItemsList l1
         let y ← renderItemsList l2
         pure (x ++ y))) := by
  constructor
  · intro html b1 b2 o1 o2 h1 h2
    unfold runFeed at h1 h2
    cases hx : extract_articles_from_html html with
    | error e =>
        simp only [hx] at h1
        exact (Except.noConfusion h1)
    | ok arts =>
    simp only [hx] at h1 h2
    by_cases ht : pyTruthy arts = true
    · rw [if_pos ht] at h1 h2
      unfold create_rss_feed at h1 h2
      cases hr : renderItems arts with
      | error e =>
        simp only [hr] at h1
        exact (Except.noConfusion h1)
      | ok items =>
      simp only [hr] at h1 h2
      injection h1 with h1
      injection h2 with h2
      subst h1
      subst h2
      refine ⟨joinNL rssHeaderPre ++ "\n" ++ "    <lastBuildDate>",
        "</lastBuildDate>" ++ "\n" ++ joinNL (rssHeaderPost ++ items ++ rssFooter),
        ?_, ?_⟩
      · rw [joinNL_append rssHeaderPre _ (by simp [rssHeaderPre]) (by simp),
          joinNL_cons _ _ (by simp [rssHeaderPost])]
        unfold lastBuildLine
        simp only [String.append_assoc]
      · rw [joinNL_append rssHeaderPre _ (by simp [rssHeaderPre]) (by simp),
          joinNL_cons _ _ (by simp [rssHeaderPost])]
        unfold lastBuildLine
        simp only [String.append_assoc]
    · rw [if_neg ht] at h1
      exact (Except.noConfusion h1)
  · exact renderItemsList_append

/-- Witness for C9 at a concrete page and two different build timestamps. -/
theorem C9_idempotent_modulo_build_date_witness :
    ∃ o1 o2 pre post,
      runFeed "Mon, 12 Oct 2026 00:00:00 +0000"
          "window.__DATA__ = \x7b\"initialData\": \x7b\"issueData\": \x7b\"article_previews\": \x7b\"advances\": [\x7b\"title\": \"T\", \"url\": \"/a\"\x7d]\x7d\x7d\x7d\x7d;"
        = .ok o1 ∧
      runFeed "Tue, 13 Oct 2026 00:00:00 +0000"
          "window.__DATA__ = \x7b\"initialData\": \x7b\"issueData\": \x7b\"article_previews\": \x7b\"advances\": [\x7b\"title\": \"T\", \"url\": \"/a\"\x7d]\x7d\x7d\x7d\x7d;"
        = .ok o2 ∧
      o1 = pre ++ "Mon, 12 Oct 2026 00:00:00 +0000" ++ post ∧
      o2 = pre ++ "Tue, 13 Oct 2026 00:00:00 +0000" ++ post := by
  obtain ⟨pre, post, hp1, hp2⟩ := C9_idempotent_modulo_build_date.1
    "window.__DATA__ = \x7b\"initialData\": \x7b\"issueData\": \x7b\"article_previews\": \x7b\"advances\": [\x7b\"title\": \"T\", \"url\": \"/a\"\x7d]\x7d\x7d\x7d\x7d;"
    "Mon, 12 Oct 2026 00:00:00 +0000" "Tue, 13 Oct 2026 00:00:00 +0000" _ _ rfl rfl
  exact ⟨_, _, pre, post, rfl, rfl, hp1, hp2⟩

theorem digitChar_isDigit (k : Nat) : (digitChar k).isDigit = true := by
  unfold digitChar
  have h : k % 10 < 10 := Nat.mod_lt _ (by norm_num)
  generalize hm : k % 10 = m at h ⊢
  interval_cases m <;> decide

theorem natDigitsAux_all (fuel : Nat) : ∀ (n : Nat) (acc : List Char),
    acc.all Char.isDigit = true → (natDigitsAux fuel n acc).all Char.isDigit = true := by
  induction fuel with
  | zero => intro n acc hacc; exact hacc
  | succ fuel ih =>
      intro n acc hacc
      unfold natDigitsAux
      by_cases h : n < 10
      · rw [if_pos h]
        simp [List.all_cons, digitChar_isDigit, hacc]
      · rw [if_neg h]
        exact ih _ _ (by simp [List.all_cons, digitChar_isDigit, hacc])

theorem natDigitsAux_length (fuel : Nat) : ∀ (n : Nat) (acc : List Char),
    1 ≤ fuel → acc.length + 1 ≤ (natDigitsAux fuel n acc).length := by
  induction fuel with
  | zero => intro n acc h; exact absurd h (by norm_num)
  | succ fuel ih =>
      intro n acc _
      unfold natDigitsAux
      by_cases h : n < 10
      · rw [if_pos h]; simp
      · rw [if_neg h]
        by_cases hf : 1 ≤ fuel
        · have := ih (n / 10) (digitChar (n % 10) :: acc) hf
          simp at this
          omega
        · have hf0 : fuel = 0 := by omega
          subst hf0
          unfold natDigitsAux
          simp

theorem natDigits_shape (n : Nat) :
    ∃ c cs, natDigits n = c :: cs ∧ c.isDigit = true ∧ cs.all Char.isDigit = true := by
  have hall : (natDigits n).all Char.isDigit = true := natDigitsAux_all _ _ _ rfl
  have hlen : 1 ≤ (natDigits n).length := by
    have := natDigitsAux_length (n + 1) n [] (by omega)
    simpa [natDigits] using this
  cases h : natDigits n with
  | nil => rw [h] at hlen; simp at hlen
  | cons c cs =>
      rw [h] at hall
      simp [List.all_cons] at hall
      exact ⟨c, cs, rfl, hall.1, by simp [List.all_eq_true]; exact fun x hx => hall.2 x hx⟩

theorem rfcYearLoop_digits (w : Bool) (ds rest : List Char)
    (hds : ds.all Char.isDigit = true) :
    rfcYearLoop w (ds ++ ' ' :: rest) = rfcTimeTail w rest := by
  induction ds with
  | nil => simp [rfcYearLoop]
  | cons d ds ih =>
      simp only [List.all_cons, Bool.and_eq_true] at hds
      have hne : d ≠ ' ' := by
        intro h
        rw [h] at hds
        exact absurd hds.1 (by decide)
      simp [rfcYearLoop, hne, hds.1, ih hds.2]

theorem rfcOffsetTail_offsetChars (off : Int) : rfcOffsetTail (offsetChars off) = true := by
  unfold offsetChars
  by_cases hs : off.natAbs % 60 = 0 <;>
    by_cases hneg : off < 0 <;>
      simp [hs, hneg, pad2, rfcOffsetTail, digitChar_isDigit]

theorem rfcTimeTail_strf (w : Bool) (hh mm ss : Nat) (z : List Char)
    (hz : if w = true then rfcOffsetTail z = true else z = []) :
    rfcTimeTail w (pad2 hh ++ ':' :: (pad2 mm ++ ':' :: (pad2 ss ++ ' ' :: z))) = true := by
  by_cases hw : w = true
  · rw [hw] at hz ⊢
    simp only [if_pos] at hz
    simp [pad2, rfcTimeTail, digitChar_isDigit, hz]
  · have hw' : w = false := by
      cases w
      · rfl
      · exact absurd rfl hw
    rw [hw'] at hz ⊢
    simp at hz
    simp [pad2, rfcTimeTail, digitChar_isDigit, hz]

theorem dayAbbrev_shape (i : Nat) :
    ∃ a1 a2 a3, (dayAbbrev i).data = [a1, a2, a3] ∧
      (a1.isAlpha && a2.isAlpha && a3.isAlpha) = true := by
  unfold dayAbbrev
  split <;> exact ⟨_, _, _, rfl, by decide⟩

theorem monthAbbrev_shape (m : Nat) :
    ∃ b1 b2 b3, (monthAbbrev m).data = [b1, b2, b3] ∧
      (b1.isAlpha && b2.isAlpha && b3.isAlpha) = true := by
  unfold monthAbbrev
  split <;> exact ⟨_, _, _, rfl, by decide⟩

theorem rfcShape_strftime (dt : PyDateTime) :
    rfcShape dt.offset.isSome (strftimeChars dt) = true := by
  unfold strftimeChars
  obtain ⟨a1, a2, a3, hday, ha⟩ := dayAbbrev_shape (daysSinceDay1 dt.year dt.month dt.day)
  obtain ⟨b1, b2, b3, hmon, hb⟩ := monthAbbrev_shape dt.month
  obtain ⟨c, cs, hnat, hc, hcs⟩ := natDigits_shape dt.year
  rw [hday, hmon, hnat]
  have hz : if dt.offset.isSome = true then
      rfcOffsetTail (match dt.offset with | some off => offsetChars off | none => []) = true
    else (match dt.offset with | some off => offsetChars off | none => []) = [] := by
    cases dt.offset with
    | some off => simp [rfcOffsetTail_offsetChars off]
    | none => simp
  simp only [List.cons_append, List.nil_append, List.append_assoc]
  have hhead : rfcShape dt.offset.isSome
      (a1 :: a2 :: a3 :: ',' :: ' ' :: (pad2 dt.day ++
        (' ' :: b1 :: b2 :: b3 :: ' ' :: (c :: (cs ++
          (' ' :: (pad2 dt.hour ++ (':' :: (pad2 dt.minute ++ (':' :: (pad2 dt.second ++
            (' ' :: (match dt.offset with | some off => offsetChars off | none => []))))))))))))) = true := by
    simp only [pad2, List.cons_append, List.nil_append]
    simp only [rfcShape, Bool.and_eq_true] at *
    simp [ha, hb, hc, digitChar_isDigit]
    rw [rfcYearLoop_digits _ _ _ hcs]
    have := rfcTimeTail_strf dt.offset.isSome dt.hour dt.minute dt.second
      (match dt.offset with | some off => offsetChars off | none => []) hz
    simpa [pad2, List.cons_append, List.nil_append, List.append_assoc] using this
  -- now align list shapes
  convert hhead using 2

theorem pubdateRoute_empty : pubdateRoute "" = none := rfl

theorem parse_pubdate_str_with_offset (s : String) (dt : PyDateTime)
    (hroute : pubdateRoute s = some dt) (hsome : dt.offset.isSome = true) :
    isRfc822WithOffset (parse_pubdate_str s) = true := by
  have hne : s ≠ "" := by
    intro h0
    rw [h0, pubdateRoute_empty] at hroute
    exact Option.noConfusion hroute
  unfold parse_pubdate_str
  rw [if_neg hne, hroute]
  unfold isRfc822WithOffset strftimeRfc
  have hmk : (String.mk (strftimeChars dt)).data = strftimeChars dt := rfl
  rw [hmk]
  have := rfcShape_strftime dt
  rw [hsome] at this
  exact this

theorem parse_pubdate_str_naive (s : String) (dt : PyDateTime)
    (hroute : pubdateRoute s = some dt) (hnone : dt.offset = none) :
    isRfc822Naive (parse_pubdate_str s) = true := by
  have hne : s ≠ "" := by
    intro h0
    rw [h0, pubdateRoute_empty] at hroute
    exact Option.noConfusion hroute
  unfold parse_pubdate_str
  rw [if_neg hne, hroute]
  unfold isRfc822Naive strftimeRfc
  have hmk : (String.mk (strftimeChars dt)).data = strftimeChars dt := rfl
  rw [hmk]
  have := rfcShape_strftime dt
  rw [hnone] at this
  exact this

theorem parse_pubdate_str_none (s : String) (hroute : pubdateRoute s = none) :
    parse_pubdate_str s = "" := by
  unfold parse_pubdate_str
  by_cases hne : s = ""
  · rw [if_pos hne]
  · rw [if_neg hne, hroute]

theorem isDigit_ne_dash (c : Char) (h : c.isDigit = true) : (c = '-') = False := by
  simp only [eq_iff_iff, iff_false]
  intro he
  rw [he] at h
  exact absurd h (by decide)

theorem isDigit_ne_plus (c : Char) (h : c.isDigit = true) : (c = '+') = False := by
  simp only [eq_iff_iff, iff_false]
  intro he
  rw [he] at h
  exact absurd h (by decide)

theorem shape3_appended_offset (s : String)
    (y1 y2 y3 y4 m1 m2 d1 d2 h1 h2 i1 i2 s1 s2 : Char)
    (hdata : s.data = [y1, y2, y3, y4, '-', m1, m2, '-', d1, d2, 'T',
      h1, h2, ':', i1, i2, ':', s1, s2])
    (hdig : [y1, y2, y3, y4, m1, m2, d1, d2, h1, h2, i1, i2, s1, s2].all
      Char.isDigit = true)
    (dt : PyDateTime) (h : fromIso (s ++ "+00:00") = some dt) :
    dt.offset.isSome = true := by
  simp only [List.all_cons, List.all_nil, Bool.and_eq_true, Bool.and_true] at hdig
  obtain ⟨hy1, hy2, hy3, hy4, hm1, hm2, hd1, hd2, hh1, hh2, hi1, hi2, hs1, hs2⟩ := hdig
  have happ : (s ++ "+00:00").data = [y1, y2, y3, y4, '-', m1, m2, '-', d1, d2, 'T',
      h1, h2, ':', i1, i2, ':', s1, s2, '+', '0', '0', ':', '0', '0'] := by
    rw [String.data_append, hdata]
    rfl
  unfold fromIso at h
  rw [happ] at h
  simp only [List.take, List.drop] at h
  rw [show ([y1, y2, y3, y4, m1, m2, d1, d2].all Char.isDigit) = true by
    simp [hy1, hy2, hy3, hy4, hm1, hm2, hd1, hd2]] at h
  simp only [decide_True, Bool.and_self, Bool.true_and, if_true, reduceIte] at h
  have htime : parseIsoTime [h1, h2, ':', i1, i2, ':', s1, s2, '+', '0', '0', ':', '0', '0']
      = some ((h1.toNat - 48) * 10 + (h2.toNat - 48),
              (i1.toNat - 48) * 10 + (i2.toNat - 48),
              (s1.toNat - 48) * 10 + (s2.toNat - 48), some 0) := by
    unfold parseIsoTime
    have hfindd : findIdxOfChar '-' [h1, h2, ':', i1, i2, ':', s1, s2, '+', '0', '0', ':', '0', '0'] = none := by
      simp [findIdxOfChar, isDigit_ne_dash _ hh1, isDigit_ne_dash _ hh2,
        isDigit_ne_dash _ hi1, isDigit_ne_dash _ hi2,
        isDigit_ne_dash _ hs1, isDigit_ne_dash _ hs2]
    have hfindp : findIdxOfChar '+' [h1, h2, ':', i1, i2, ':', s1, s2, '+', '0', '0', ':', '0', '0'] = some 8 := by
      simp [findIdxOfChar, isDigit_ne_plus _ hh1, isDigit_ne_plus _ hh2,
        isDigit_ne_plus _ hi1, isDigit_ne_plus _ hi2,
        isDigit_ne_plus _ hs1, isDigit_ne_plus _ hs2]
    rw [hfindd, hfindp]
    simp only [List.take, List.drop, List.getD, List.get?]
    rw [show parseHMSF [h1, h2, ':', i1, i2, ':', s1, s2]
        = some ((h1.toNat - 48) * 10 + (h2.toNat - 48),
                (i1.toNat - 48) * 10 + (i2.toNat - 48),
                (s1.toNat - 48) * 10 + (s2.toNat - 48), 0) by
      unfold parseHMSF
      simp [hh1, hh2, hi1, hi2, hs1, hs2]]
    simp
    rfl
  rw [htime] at h
  split at h
  case h_1 heq =>
    simp only [List.isEmpty_cons, Bool.false_eq_true, if_false] at heq
    injection heq with heq
    cases heq
    split at h
    · injection h with h
      rw [← h]
      rfl
    · exact Option.noConfusion h
  case h_2 heq =>
    simp only [List.isEmpty_cons, Bool.false_eq_true, if_false] at heq
    exact Option.noConfusion heq

/-- C1 counterexample: `2023-01-02` (no timezone, not in the code's
nineteen-character no-timezone shape) is outside the three accepted shapes,
yet the normalizer returns a non-empty RFC-822-style string *without* a
numeric offset instead of the empty string; `2023-01-02Z` even carries the
trailing UTC marker and still comes back without an offset (the `Z`
replacement makes `fromisoformat` swallow the `+` as the ignored separator
character); and the shape-3 string `2023-13-01T00:00:00` yields the empty
string because month 13 fails validation. -/
theorem C1_counterexample :
    parse_pubdate_str "2023-01-02" = "Mon, 02 Jan 2023 00:00:00 " ∧
    parse_pubdate_str "2023-01-02" ≠ "" ∧
    isRfc822WithOffset (parse_pubdate_str "2023-01-02") = false ∧
    parse_pubdate_str "2023-01-02Z" = "Mon, 02 Jan 2023 00:00:00 " ∧
    parse_pubdate_str "2023-13-01T00:00:00" = "" := by
  exact ⟨rfl, by decide, by decide, rfl, rfl⟩

/-- C1 (amended): the date normalizer never raises (it is total); whenever
the routed parse produces an offset-aware datetime the result is a valid
RFC-822 string with a numeric offset; whenever it produces a naive datetime
(e.g. date-only input) the result is an RFC-822-style string *without* an
offset rather than the empty string; unparseable input yields the empty
string; and a string in the nineteen-character no-timezone shape parses,
after the appended `+00:00`, to an offset-aware datetime. -/
theorem C1_date_normalizer_amended :
    (∀ (s : String) (dt : PyDateTime), pubdateRoute s = some dt →
       dt.offset.isSome = true →
       isRfc822WithOffset (parse_pubdate_str s) = true) ∧
    (∀ (s : String) (dt : PyDateTime), pubdateRoute s = some dt →
       dt.offset = none →
       isRfc822Naive (parse_pubdate_str s) = true) ∧
    (∀ s : String, pubdateRoute s = none → parse_pubdate_str s = "") ∧
    (∀ (s : String) (y1 y2 y3 y4 m1 m2 d1 d2 h1 h2 i1 i2 s1 s2 : Char),
       s.data = [y1, y2, y3, y4, '-', m1, m2, '-', d1, d2, 'T',
         h1, h2, ':', i1, i2, ':', s1, s2] →
       [y1, y2, y3, y4, m1, m2, d1, d2, h1, h2, i1, i2, s1, s2].all
         Char.isDigit = true →
       ∀ dt : PyDateTime, fromIso (s ++ "+00:00") = some dt →
         dt.offset.isSome = true) :=
  ⟨parse_pubdate_str_with_offset, parse_pubdate_str_naive, parse_pubdate_str_none,
   fun s y1 y2 y3 y4 m1 m2 d1 d2 h1 h2 i1 i2 s1 s2 hdata hdig dt h =>
     shape3_appended_offset s y1 y2 y3 y4 m1 m2 d1 d2 h1 h2 i1 i2 s1 s2 hdata hdig dt h⟩

/-- Witness for C1's amended statement at a concrete trailing-`Z` input. -/
theorem C1_date_normalizer_amended_witness :
    isRfc822WithOffset (parse_pubdate_str "2023-01-02T03:04:05Z") = true :=
  C1_date_normalizer_amended.1 "2023-01-02T03:04:05Z"
    ⟨2023, 1, 2, 3, 4, 5, some 0⟩ rfl rfl
